import Mathlib

/-!
Verification development for the jing-lang interpreter
(lexer → parser → bytecode compiler → stack VM).

The definitions below are a shallow embedding of the Rust sources:
  src/error.rs, src/value.rs, src/lexer.rs, src/parser.rs,
  src/compiler.rs, src/vm.rs.
Rust `f64` numbers are modelled as exact rationals (ℚ); every program and
operand appearing in the theorems below only exercises values on which the
`f64` operations are exact (small integers and powers of two), and
`f64::EPSILON = 2^(-52)` is representable exactly.
Rust `HashMap`s are modelled as association lists with first-match lookup
and overwrite-in-place insertion, which is observationally equivalent for
the lookup/insert/contains operations the interpreter uses.
The VM's `println!` side effect is modelled by an `output` field collecting
the printed lines, and an auxiliary ghost field `trace` records the index of
every executed instruction (it influences nothing).
-/

namespace Jing

/-- The exact value carried by a Rust `f64` number, as an (unnormalized)
rational `num / den`.  Every construction below keeps `den` positive.
Working with raw `Int`/`Nat` arithmetic (rather than Mathlib's normalizing
`ℚ`) keeps all operations kernel-computable; `Qn.toRat` maps the
representation to the rational it denotes, and the comparison operations
are proved below to agree with the `ℚ` comparisons through `toRat`.
`f64` arithmetic is exact on all values the theorems below compute with;
exact-rational division (where `f64` would round) is never exercised. -/
structure Qn where
  num : ℤ
  den : ℕ
deriving Repr, DecidableEq

namespace Qn

/-- The rational denoted by the representation. -/
def toRat (q : Qn) : ℚ := (q.num : ℚ) / (q.den : ℚ)

/-- Embed an integer. -/
def ofInt (n : ℤ) : Qn := ⟨n, 1⟩

def qAdd (a b : Qn) : Qn := ⟨a.num * b.den + b.num * a.den, a.den * b.den⟩

def qSub (a b : Qn) : Qn := ⟨a.num * b.den - b.num * a.den, a.den * b.den⟩

def qMul (a b : Qn) : Qn := ⟨a.num * b.num, a.den * b.den⟩

/-- Exact rational division (sign moved into the numerator). -/
def qDiv (a b : Qn) : Qn :=
  ⟨a.num * b.den * (if b.num < 0 then -1 else 1), a.den * b.num.natAbs⟩

def qNeg (a : Qn) : Qn := ⟨-a.num, a.den⟩

/-- `b == 0.0` on `f64`. -/
def qIsZero (a : Qn) : Bool := a.num = 0

/-- `a < b` (cross-multiplication; valid for positive denominators). -/
def qLt (a b : Qn) : Bool := a.num * b.den < b.num * a.den

/-- `(a - b).abs() < f64::EPSILON` with `EPSILON = 2⁻⁵²`:
`|a - b| < 2⁻⁵²  ⟺  |num(a-b)| · 2⁵² < den(a-b)`. -/
def qEpsEq (a b : Qn) : Bool :=
  (qSub a b).num.natAbs * 2 ^ 52 < (qSub a b).den

/-- Truncation toward zero (the rounding Rust's `%` uses on `f64`). -/
def qTrunc (a : Qn) : ℤ := a.num.tdiv a.den

/-- Rust `%` on `f64`: `a % b = a - b * trunc(a / b)`. -/
def qMod (a b : Qn) : Qn := qSub a (qMul b (ofInt (qTrunc (qDiv a b))))

/-- Integral test (`n.fract() == 0.0`): the denominator divides the
numerator. -/
def qIsInt (a : Qn) : Bool := a.num.tmod a.den = 0

/-- Integer value of an integral `Qn`. -/
def qToInt (a : Qn) : ℤ := a.num.tdiv a.den

end Qn

/-- Error type, from src/error.rs (`JingError` / `JiLangError`). -/
inductive JingError where
  | lexError (message : String) (line : Nat)
  | parseError (message : String) (line : Nat)
  | compileError (message : String)
  | runtimeError (message : String)
  | typeError (message : String)
  | ioError (message : String)
deriving Repr, DecidableEq

deriving instance DecidableEq for Except

/-- Dynamic values, from src/value.rs `enum Value`.
`number` carries an exact rational standing for the Rust `f64`.
The `builtinFunction` variant appears in src/vm.rs
(`Value::BuiltinFunction \x7b name, function \x7d`); the opaque `Arc`
callable handle is represented by the registered name, and the (read-only,
initialized-once) registry is passed to the VM as an explicit parameter. -/
inductive Value where
  | nil
  | bool (b : Bool)
  | number (n : Qn)
  | string (s : String)
  | function (name : String) (arity : Nat) (chunkStart : Nat)
  | builtinFunction (name : String)
deriving Repr, DecidableEq

namespace Value

/-- `Value::is_truthy` (src/value.rs): nil and false are falsy, all else truthy. -/
def isTruthy : Value → Bool
  | .nil => false
  | .bool b => b
  | _ => true

/-- `Value::is_falsy` (src/value.rs). -/
def isFalsy (v : Value) : Bool := !v.isTruthy

/-- `Value::type_name` (src/value.rs). -/
def typeName : Value → String
  | .nil => "nil"
  | .bool _ => "bool"
  | .number _ => "number"
  | .string _ => "string"
  | .function _ _ _ => "function"
  | .builtinFunction _ => "function"

/-- The `Display` implementation for `Value` (src/value.rs).
For numbers, Rust prints integral doubles without a fractional part
(`\x7b:.0\x7d`); an exact rational is integral iff its denominator divides
its numerator.  Non-integral numbers are printed by Rust's
shortest-roundtrip `f64` formatting, which has no exact rational
counterpart; no theorem below prints a non-integral number, and we use a
num/den rendering there. -/
def display : Value → String
  | .nil => "nil"
  | .bool true => "true"
  | .bool false => "false"
  | .number n =>
      if n.qIsInt then toString n.qToInt
      else toString n.num ++ "/" ++ toString n.den
  | .string s => s
  | .function name arity _ =>
      "<fn " ++ name ++ "(" ++ toString arity ++ " args)>"
  | .builtinFunction name => "<builtin " ++ name ++ ">"

/-- `Value::add` (src/value.rs): numeric addition, string concatenation,
and string/non-string concatenation via `Display`. -/
def add : Value → Value → Except JingError Value
  | .number a, .number b => .ok (.number (a.qAdd b))
  | .string a, .string b => .ok (.string (a ++ b))
  | .string a, other => .ok (.string (a ++ other.display))
  | a, .string b => .ok (.string (a.display ++ b))
  | a, b => .error (.typeError ("Cannot add " ++ a.typeName ++ " and " ++ b.typeName))

/-- `Value::subtract` (src/value.rs). -/
def subtract : Value → Value → Except JingError Value
  | .number a, .number b => .ok (.number (a.qSub b))
  | a, b => .error (.typeError ("Cannot subtract " ++ a.typeName ++ " and " ++ b.typeName))

/-- `Value::multiply` (src/value.rs). -/
def multiply : Value → Value → Except JingError Value
  | .number a, .number b => .ok (.number (a.qMul b))
  | a, b => .error (.typeError ("Cannot multiply " ++ a.typeName ++ " and " ++ b.typeName))

/-- `Value::divide` (src/value.rs); division by zero is a runtime error. -/
def divide : Value → Value → Except JingError Value
  | .number a, .number b =>
      if b.qIsZero then .error (.runtimeError "Division by zero")
      else .ok (.number (a.qDiv b))
  | a, b => .error (.typeError ("Cannot divide " ++ a.typeName ++ " and " ++ b.typeName))

/-- `Value::modulo` (src/value.rs); Rust `%` on `f64` truncates toward zero:
`a % b = a - b * trunc(a / b)`. -/
def modulo : Value → Value → Except JingError Value
  | .number a, .number b =>
      if b.qIsZero then .error (.runtimeError "Division by zero")
      else .ok (.number (a.qMod b))
  | a, b => .error (.typeError ("Cannot modulo " ++ a.typeName ++ " and " ++ b.typeName))

/-- `Value::negate` (src/value.rs). -/
def negate : Value → Except JingError Value
  | .number n => .ok (.number n.qNeg)
  | v => .error (.typeError ("Cannot negate " ++ v.typeName))

/-- `Value::not` (src/value.rs): boolean of falsiness. -/
def notOp (v : Value) : Value := .bool v.isFalsy

/-- `f64::EPSILON` as an exact rational: 2⁻⁵². -/
def epsF64 : ℚ := 1 / 2 ^ 52

/-- `Value::equals` (src/value.rs): numbers compare with an absolute-difference
epsilon; values of different kinds (including two functions) are unequal. -/
def equals : Value → Value → Bool
  | .nil, .nil => true
  | .bool a, .bool b => a == b
  | .number a, .number b => a.qEpsEq b
  | .string a, .string b => a == b
  | _, _ => false

/-- `Value::less_than` (src/value.rs): numbers or strings only. -/
def lessThan : Value → Value → Except JingError Bool
  | .number a, .number b => .ok (a.qLt b)
  | .string a, .string b => .ok (a < b)
  | a, b => .error (.typeError ("Cannot compare " ++ a.typeName ++ " and " ++ b.typeName))

/-- `Value::greater_than` (src/value.rs). -/
def greaterThan : Value → Value → Except JingError Bool
  | .number a, .number b => .ok (b.qLt a)
  | .string a, .string b => .ok (a > b)
  | a, b => .error (.typeError ("Cannot compare " ++ a.typeName ++ " and " ++ b.typeName))

end Value

/-- One lexical scope: a name→value map (Rust `HashMap<String, Value>`),
modelled as an association list (first match wins; insert overwrites). -/
abbrev Scope := List (String × Value)

/-- Insert/overwrite a binding in a scope (HashMap::insert). -/
def scopeInsert (name : String) (v : Value) : Scope → Scope
  | [] => [(name, v)]
  | (k, w) :: t => if k = name then (name, v) :: t else (k, w) :: scopeInsert name v t

/-- HashMap::get on a scope. -/
def scopeGet (name : String) : Scope → Option Value
  | [] => none
  | (k, w) :: t => if k = name then some w else scopeGet name t

/-- HashMap::contains_key on a scope. -/
def scopeContains (name : String) (s : Scope) : Bool := (scopeGet name s).isSome

/-- `Environment` (src/value.rs): a stack of scopes.  Rust keeps the
innermost scope at the END of its `Vec`; here the innermost scope is the
HEAD of the list, so Rust's `last_mut`/`iter().rev()` become head access. -/
structure Environment where
  scopes : List Scope
deriving Repr, DecidableEq

namespace Environment

/-- `Environment::new`: a single (global) scope. -/
def new : Environment := ⟨[[]]⟩

/-- `Environment::push_scope`.  (Never called by the VM in src/vm.rs.) -/
def pushScope (e : Environment) : Environment := ⟨[] :: e.scopes⟩

/-- `Environment::pop_scope`: pops only if more than one scope remains.
(Never called by the VM in src/vm.rs.) -/
def popScope (e : Environment) : Environment :=
  match e.scopes with
  | s :: rest => if rest.isEmpty then ⟨s :: rest⟩ else ⟨rest⟩
  | [] => ⟨[]⟩

/-- `Environment::define`: insert/overwrite in the innermost scope. -/
def define (e : Environment) (name : String) (v : Value) : Environment :=
  match e.scopes with
  | [] => e
  | s :: rest => ⟨scopeInsert name v s :: rest⟩

/-- `Environment::get`: walk scopes from innermost outward. -/
def get (e : Environment) (name : String) : Except JingError Value :=
  go e.scopes
where
  go : List Scope → Except JingError Value
    | [] => .error (.runtimeError ("Undefined variable '" ++ name ++ "'"))
    | s :: rest =>
        match scopeGet name s with
        | some v => .ok v
        | none => go rest

/-- `Environment::set`: update the nearest enclosing binding; error if the
name is bound in no scope.  (Defined in src/value.rs but never invoked by
the VM's `Store` handler, which calls `define` instead.) -/
def set (e : Environment) (name : String) (v : Value) : Except JingError Environment :=
  match go e.scopes with
  | some scopes => .ok ⟨scopes⟩
  | none => .error (.runtimeError ("Undefined variable '" ++ name ++ "'"))
where
  go : List Scope → Option (List Scope)
    | [] => none
    | s :: rest =>
        if scopeContains name s then some (scopeInsert name v s :: rest)
        else (go rest).map (fun r => s :: r)

end Environment

/-- Bytecode instructions, from src/compiler.rs `enum OpCode`.
`ret` is Rust's `Return`. -/
inductive OpCode where
  | constant (index : Nat)
  | load (name : String)
  | store (name : String)
  | pop
  | add | subtract | multiply | divide | modulo | negate
  | equal | notEqual | less | lessEqual | greater | greaterEqual
  | and | or | not
  | jump (address : Nat)
  | jumpIfFalse (address : Nat)
  | call (arity : Nat)
  | ret
  | print
  | halt
deriving Repr, DecidableEq

/-- `FunctionInfo` (src/compiler.rs). -/
structure FunctionInfo where
  name : String
  arity : Nat
  startAddress : Nat
  locals : List String
deriving Repr, DecidableEq

/-- Function table: `HashMap<String, FunctionInfo>` as an association list;
insertion conses and lookup takes the first match, which is observationally
the overwrite semantics of `HashMap::insert`. -/
abbrev FuncTable := List (String × FunctionInfo)

def funcLookup (name : String) : FuncTable → Option FunctionInfo
  | [] => none
  | (k, fi) :: t => if k = name then some fi else funcLookup name t

/-- `Chunk` (src/compiler.rs). -/
structure Chunk where
  code : List OpCode
  constants : List Value
  functions : FuncTable
deriving Repr, DecidableEq

namespace Chunk

def new : Chunk := ⟨[], [], []⟩

/-- `Chunk::emit`. -/
def emit (c : Chunk) (op : OpCode) : Chunk := { c with code := c.code ++ [op] }

/-- `Chunk::emit_constant`: intern the value and emit `Constant(i)`. -/
def emitConstant (c : Chunk) (v : Value) : Chunk :=
  { c with constants := c.constants ++ [v],
           code := c.code ++ [OpCode.constant c.constants.length] }

/-- `Chunk::current_address`. -/
def currentAddress (c : Chunk) : Nat := c.code.length

/-- `Chunk::patch_jump`: rewrite the operand of the jump at `address`.
The Rust code panics when `address` does not hold a jump; the compiler only
ever patches addresses at which it just emitted a jump, so that branch is
unreachable and is modelled as a no-op. -/
def patchJump (c : Chunk) (address target : Nat) : Chunk :=
  { c with code :=
      match c.code.get? address with
      | some (OpCode.jump _) => c.code.set address (OpCode.jump target)
      | some (OpCode.jumpIfFalse _) => c.code.set address (OpCode.jumpIfFalse target)
      | _ => c.code }

end Chunk

/-! ## Lexer (src/lexer.rs)

The Rust lexer keeps an index into the input; here the state is the list of
remaining characters plus the 1-based line counter, and `advance` is
`List` head consumption.  Token recognition is character-faithful. -/

/-- `TokenType` (src/lexer.rs).  Keyword constructors carry a `K` suffix
because `let`, `if`, … are Lean keywords. -/
inductive TokenType where
  | number (n : Qn)
  | string (s : String)
  | identifier (s : String)
  | letK | ifK | elseK | whileK | fnK | returnK
  | trueK | falseK | nilK | andK | orK | notK
  | plus | minus | star | slash | percent
  | equal | equalEqual | bang | bangEqual
  | less | lessEqual | greater | greaterEqual
  | leftParen | rightParen | leftBrace | rightBrace
  | semicolon | comma
  | newline | eof
deriving Repr, DecidableEq

/-- `Token` (src/lexer.rs): a token type plus its 1-based source line. -/
structure Token where
  tokenType : TokenType
  line : Nat
deriving Repr, DecidableEq

/-- `Lexer::skip_whitespace`: spaces, carriage returns and tabs (not
newlines; the null sentinel at end of input stops the loop). -/
def skipWs : List Char → List Char
  | c :: rest => if c = ' ' ∨ c = '\r' ∨ c = '\t' then skipWs rest else c :: rest
  | [] => []

/-- One translated escape character (the `match self.advance()` arm of
`Lexer::string`); `none` means the escape passes through as backslash plus
the character. -/
def escapeChar : Char → Option Char
  | 'n' => some '\n'
  | 't' => some '\t'
  | 'r' => some '\r'
  | '\\' => some '\\'
  | '"' => some '"'
  | _ => none

/-- `Lexer::string` (src/lexer.rs): scan a string literal body after the
opening quote.  `startLine` is the line the opening quote appeared on;
`line` is the running line counter; `acc` the characters read so far.
Returns the literal's value, the updated line, and the rest of the input,
or the unterminated-string error carrying `startLine`. -/
def scanStr (startLine : Nat) : List Char → Nat → String →
    Except JingError (String × Nat × List Char)
  | [], _, _ => .error (.lexError "Unterminated string" startLine)
  | '"' :: rest, line, acc => .ok (acc, line, rest)
  | c :: rest, line, acc =>
      let line' := if c = '\n' then line + 1 else line
      if h : c = '\\' ∧ rest ≠ [] then
        match rest, h.2 with
        | [], h2 => absurd rfl h2
        | e :: rest2, _ =>
            match escapeChar e with
            | some t => scanStr startLine rest2 line' (acc.push t)
            | none => scanStr startLine rest2 line' ((acc.push '\\').push e)
      else
        scanStr startLine rest line' (acc.push c)

/-- Digit run → natural number (the value of `input[start..current]`). -/
def digitsToNat (ds : List Char) : Nat :=
  ds.foldl (fun a c => a * 10 + (c.toNat - 48)) 0

/-- `Lexer::number` (src/lexer.rs): the first digit `c0` has already been
consumed.  The decimal string parses exactly into ℚ (Rust parses into
`f64`, which is exact for every literal used in the theorems below). -/
def scanNumber (c0 : Char) (cs : List Char) (startLine : Nat) :
    Token × List Char :=
  let ip := cs.takeWhile Char.isDigit
  let rest := cs.dropWhile Char.isDigit
  match rest with
  | '.' :: d :: rest2 =>
      if d.isDigit then
        let fd := (d :: rest2).takeWhile Char.isDigit
        let rest3 := (d :: rest2).dropWhile Char.isDigit
        let val : Qn :=
          ⟨digitsToNat (c0 :: ip) * 10 ^ fd.length + digitsToNat fd, 10 ^ fd.length⟩
        (⟨.number val, startLine⟩, rest3)
      else (⟨.number (Qn.ofInt (digitsToNat (c0 :: ip))), startLine⟩, rest)
  | _ => (⟨.number (Qn.ofInt (digitsToNat (c0 :: ip))), startLine⟩, rest)

/-- The keyword table of `Lexer::identifier` (src/lexer.rs). -/
def keywordOf (text : String) : TokenType :=
  if text = "let" then .letK
  else if text = "if" then .ifK
  else if text = "else" then .elseK
  else if text = "while" then .whileK
  else if text = "fn" then .fnK
  else if text = "return" then .returnK
  else if text = "true" then .trueK
  else if text = "false" then .falseK
  else if text = "nil" then .nilK
  else if text = "and" then .andK
  else if text = "or" then .orK
  else if text = "not" then .notK
  else .identifier text

/-- `Lexer::identifier` (src/lexer.rs): first char already consumed. -/
def scanIdentifier (c0 : Char) (cs : List Char) (startLine : Nat) :
    Token × List Char :=
  let isIdChar : Char → Bool := fun c => c.isAlphanum ∨ c = '_'
  let tail := cs.takeWhile isIdChar
  let rest := cs.dropWhile isIdChar
  (⟨keywordOf (String.mk (c0 :: tail)), startLine⟩, rest)

/-- `Lexer::next_token` (src/lexer.rs).  `fuel` only bounds the
comment-restart recursion; every caller below supplies enough. -/
def nextToken : Nat → List Char → Nat →
    Except JingError (Option Token × List Char × Nat)
  | 0, _, line => .error (.lexError "out of fuel" line)
  | fuel + 1, cs, line =>
    match skipWs cs with
    | [] => .ok (none, [], line)
    | c :: rest =>
      let startLine := line
      let one : TokenType → Except JingError (Option Token × List Char × Nat) :=
        fun tt => .ok (some ⟨tt, startLine⟩, rest, line)
      match c with
      | '(' => one .leftParen
      | ')' => one .rightParen
      | '{' => one .leftBrace
      | '}' => one .rightBrace
      | ';' => one .semicolon
      | ',' => one .comma
      | '+' => one .plus
      | '-' => one .minus
      | '*' => one .star
      | '/' =>
          match rest with
          | '/' :: rest2 =>
              -- line comment: consume to (but not including) the newline
              nextToken fuel (rest2.dropWhile (fun ch => ch ≠ '\n')) line
          | _ => one .slash
      | '%' => one .percent
      | '!' =>
          match rest with
          | '=' :: rest2 => .ok (some ⟨.bangEqual, startLine⟩, rest2, line)
          | _ => one .bang
      | '=' =>
          match rest with
          | '=' :: rest2 => .ok (some ⟨.equalEqual, startLine⟩, rest2, line)
          | _ => one .equal
      | '<' =>
          match rest with
          | '=' :: rest2 => .ok (some ⟨.lessEqual, startLine⟩, rest2, line)
          | _ => one .less
      | '>' =>
          match rest with
          | '=' :: rest2 => .ok (some ⟨.greaterEqual, startLine⟩, rest2, line)
          | _ => one .greater
      | '&' =>
          match rest with
          | '&' :: rest2 => .ok (some ⟨.andK, startLine⟩, rest2, line)
          | _ => .error (.lexError ("Unexpected character: '" ++ String.singleton c ++ "'") startLine)
      | '|' =>
          match rest with
          | '|' :: rest2 => .ok (some ⟨.orK, startLine⟩, rest2, line)
          | _ => .error (.lexError ("Unexpected character: '" ++ String.singleton c ++ "'") startLine)
      | '"' =>
          match scanStr startLine rest line "" with
          | .error e => .error e
          | .ok (s, line2, rest2) => .ok (some ⟨.string s, startLine⟩, rest2, line2)
      | '\n' => .ok (some ⟨.newline, startLine⟩, rest, line + 1)
      | _ =>
          if c.isDigit then
            let (t, rest2) := scanNumber c rest startLine
            .ok (some t, rest2, line)
          else if c.isAlpha ∨ c = '_' then
            let (t, rest2) := scanIdentifier c rest startLine
            .ok (some t, rest2, line)
          else
            .error (.lexError ("Unexpected character: '" ++ String.singleton c ++ "'") startLine)

/-- `Lexer::tokenize` (src/lexer.rs): repeat `next_token`, append `Eof`. -/
def tokenizeLoop : Nat → List Char → Nat → List Token →
    Except JingError (List Token)
  | 0, _, line, _ => .error (.lexError "out of fuel" line)
  | fuel + 1, cs, line, acc =>
    match cs with
    | [] => .ok (acc ++ [⟨.eof, line⟩])
    | _ =>
      match nextToken (fuel + 1) cs line with
      | .error e => .error e
      | .ok (none, rest, line2) => tokenizeLoop fuel rest line2 acc
      | .ok (some t, rest, line2) => tokenizeLoop fuel rest line2 (acc ++ [t])

/-- Whole-input tokenization with ample fuel. -/
def tokenize (src : String) : Except JingError (List Token) :=
  tokenizeLoop (src.length * 2 + 2) src.toList 1 []

/-! ## AST (src/parser.rs)

The Rust AST wraps each variant in a struct (`BinaryExpr`, `LetStmt`, …);
here the fields are inlined into the constructors, names preserved. -/

/-- `LiteralValue` (src/parser.rs). -/
inductive LiteralValue where
  | number (n : Qn)
  | string (s : String)
  | bool (b : Bool)
  | nilL
deriving Repr, DecidableEq

/-- `BinaryOperator` (src/parser.rs). -/
inductive BinaryOperator where
  | add | subtract | multiply | divide | modulo
  | equal | notEqual | less | lessEqual | greater | greaterEqual
deriving Repr, DecidableEq

/-- `UnaryOperator` (src/parser.rs). -/
inductive UnaryOperator where
  | minus | not
deriving Repr, DecidableEq

/-- `LogicalOperator` (src/parser.rs). -/
inductive LogicalOperator where
  | and | or
deriving Repr, DecidableEq

/-- `Expr` (src/parser.rs): `var` is Rust's `Expr::Variable`. -/
inductive Expr where
  | literal (value : LiteralValue)
  | var (name : String)
  | binary (left : Expr) (operator : BinaryOperator) (right : Expr)
  | unary (operator : UnaryOperator) (operand : Expr)
  | call (callee : Expr) (args : List Expr)
  | logical (left : Expr) (operator : LogicalOperator) (right : Expr)
  | assign (name : String) (value : Expr)

/-- `Stmt` (src/parser.rs). -/
inductive Stmt where
  | expression (expr : Expr)
  | letS (name : String) (initializer : Expr)
  | block (statements : List Stmt)
  | ifS (condition : Expr) (thenBranch : Stmt) (elseBranch : Option Stmt)
  | whileS (condition : Expr) (body : Stmt)
  | function (name : String) (params : List String) (body : Stmt)
  | returnS (value : Option Expr)
  | print (expr : Expr)

/-! ## Parser (src/parser.rs)

The parser state is the token array plus the `current` index.  All parsing
functions thread `(fuel, current)` and return the parsed node with the new
index; fuel only rules out non-termination of the mutual recursion and is
always supplied amply. -/

instance : Inhabited Token := ⟨⟨.eof, 1⟩⟩

/-- Constructor-only equality of token types: Rust's
`std::mem::discriminant` comparison in `Parser::check`, which ignores the
payload of `Number`/`String`/`Identifier` tokens. -/
def TokenType.kindEq : TokenType → TokenType → Bool
  | .number _, .number _ => true
  | .string _, .string _ => true
  | .identifier _, .identifier _ => true
  | a, b => a == b

/-- `Parser::peek` (the lexer guarantees a trailing `Eof`, so the index is
always in range for runs produced by the pipeline). -/
def peekTok (toks : Array Token) (cur : Nat) : Token := toks.getD cur ⟨.eof, 1⟩

/-- `Parser::is_at_end`. -/
def atEnd (toks : Array Token) (cur : Nat) : Bool :=
  (peekTok toks cur).tokenType == .eof

/-- `Parser::advance`: move past the current token unless at `Eof`. -/
def advTok (toks : Array Token) (cur : Nat) : Nat :=
  if atEnd toks cur then cur else cur + 1

/-- `Parser::check` / `check_token_type`. -/
def checkTok (toks : Array Token) (cur : Nat) (tt : TokenType) : Bool :=
  if atEnd toks cur then false else (peekTok toks cur).tokenType.kindEq tt

/-- `Parser::match_token`: advance on a kind match, reporting success. -/
def matchTok (toks : Array Token) (cur : Nat) (tt : TokenType) : Bool × Nat :=
  if checkTok toks cur tt then (true, advTok toks cur) else (false, cur)

/-- `Parser::current_line`. -/
def currentLine (toks : Array Token) (cur : Nat) : Nat :=
  if atEnd toks cur then
    if toks.size = 0 then 1 else (peekTok toks (toks.size - 1)).line
  else (peekTok toks cur).line

/-- `Parser::consume`. -/
def consumeTok (toks : Array Token) (cur : Nat) (tt : TokenType) (msg : String) :
    Except JingError Nat :=
  if checkTok toks cur tt then .ok (advTok toks cur)
  else .error (.parseError msg (currentLine toks cur))

/-- `Parser::consume_identifier`. -/
def consumeIdentTok (toks : Array Token) (cur : Nat) (msg : String) :
    Except JingError (String × Nat) :=
  match (peekTok toks cur).tokenType with
  | .identifier name => .ok (name, advTok toks cur)
  | _ => .error (.parseError msg (currentLine toks cur))

/-- `Parser::match_equality_operator`. -/
def matchEqualityOp (toks : Array Token) (cur : Nat) : Option (BinaryOperator × Nat) :=
  if checkTok toks cur .bangEqual then some (.notEqual, advTok toks cur)
  else if checkTok toks cur .equalEqual then some (.equal, advTok toks cur)
  else none

/-- `Parser::match_comparison_operator`. -/
def matchComparisonOp (toks : Array Token) (cur : Nat) : Option (BinaryOperator × Nat) :=
  if checkTok toks cur .greater then some (.greater, advTok toks cur)
  else if checkTok toks cur .greaterEqual then some (.greaterEqual, advTok toks cur)
  else if checkTok toks cur .less then some (.less, advTok toks cur)
  else if checkTok toks cur .lessEqual then some (.lessEqual, advTok toks cur)
  else none

/-- `Parser::match_term_operator`. -/
def matchTermOp (toks : Array Token) (cur : Nat) : Option (BinaryOperator × Nat) :=
  if checkTok toks cur .minus then some (.subtract, advTok toks cur)
  else if checkTok toks cur .plus then some (.add, advTok toks cur)
  else none

/-- `Parser::match_factor_operator`. -/
def matchFactorOp (toks : Array Token) (cur : Nat) : Option (BinaryOperator × Nat) :=
  if checkTok toks cur .slash then some (.divide, advTok toks cur)
  else if checkTok toks cur .star then some (.multiply, advTok toks cur)
  else if checkTok toks cur .percent then some (.modulo, advTok toks cur)
  else none

/-- `Parser::match_unary_operator` (`!` or `not` → Not, `-` → Minus). -/
def matchUnaryOp (toks : Array Token) (cur : Nat) : Option (UnaryOperator × Nat) :=
  if checkTok toks cur .bang then some (.not, advTok toks cur)
  else if checkTok toks cur .notK then some (.not, advTok toks cur)
  else if checkTok toks cur .minus then some (.minus, advTok toks cur)
  else none

mutual

/-- `Parser::declaration`. -/
def pDeclaration (toks : Array Token) : Nat → Nat → Except JingError (Stmt × Nat)
  | 0, cur => .error (.parseError "out of fuel" (currentLine toks cur))
  | fuel + 1, cur =>
    match matchTok toks cur .letK with
    | (true, cur1) => pLetDecl toks fuel cur1
    | (false, _) =>
      match matchTok toks cur .fnK with
      | (true, cur1) => pFnDecl toks fuel cur1
      | (false, _) => pStatement toks fuel cur
termination_by structural fuel => fuel

/-- `Parser::let_declaration`. -/
def pLetDecl (toks : Array Token) : Nat → Nat → Except JingError (Stmt × Nat)
  | 0, cur => .error (.parseError "out of fuel" (currentLine toks cur))
  | fuel + 1, cur => do
    let (name, cur1) ← consumeIdentTok toks cur "Expected variable name"
    let cur2 ← consumeTok toks cur1 .equal "Expected '=' after variable name"
    let (init, cur3) ← pExpression toks fuel cur2
    let cur4 ← consumeTok toks cur3 .semicolon "Expected ';' after variable declaration"
    .ok (.letS name init, cur4)

/-- `Parser::function_declaration`. -/
def pFnDecl (toks : Array Token) : Nat → Nat → Except JingError (Stmt × Nat)
  | 0, cur => .error (.parseError "out of fuel" (currentLine toks cur))
  | fuel + 1, cur => do
    let (name, cur1) ← consumeIdentTok toks cur "Expected function name"
    let cur2 ← consumeTok toks cur1 .leftParen "Expected '(' after function name"
    let (params, cur3) ←
      if checkTok toks cur2 .rightParen then .ok ([], cur2)
      else pParams toks fuel cur2
    let cur4 ← consumeTok toks cur3 .rightParen "Expected ')' after parameters"
    let (body, cur5) ← pBlockStatement toks fuel cur4
    .ok (.function name params body, cur5)
termination_by structural fuel => fuel

/-- The parameter-list loop of `Parser::function_declaration`. -/
def pParams (toks : Array Token) : Nat → Nat → Except JingError (List String × Nat)
  | 0, cur => .error (.parseError "out of fuel" (currentLine toks cur))
  | fuel + 1, cur => do
    let (p, cur1) ← consumeIdentTok toks cur "Expected parameter name"
    match matchTok toks cur1 .comma with
    | (true, cur2) => do
        let (ps, cur3) ← pParams toks fuel cur2
        .ok (p :: ps, cur3)
    | (false, _) => .ok ([p], cur1)
termination_by structural fuel => fuel

/-- `Parser::statement`. -/
def pStatement (toks : Array Token) : Nat → Nat → Except JingError (Stmt × Nat)
  | 0, cur => .error (.parseError "out of fuel" (currentLine toks cur))
  | fuel + 1, cur =>
    match matchTok toks cur .ifK with
    | (true, cur1) => pIfStatement toks fuel cur1
    | (false, _) =>
      match matchTok toks cur .whileK with
      | (true, cur1) => pWhileStatement toks fuel cur1
      | (false, _) =>
        match matchTok toks cur .returnK with
        | (true, cur1) => pReturnStatement toks fuel cur1
        | (false, _) =>
          match matchTok toks cur .leftBrace with
          | (true, cur1) => do
              let (stmts, cur2) ← pBlock toks fuel cur1
              .ok (.block stmts, cur2)
          | (false, _) => pExpressionStatement toks fuel cur
termination_by structural fuel => fuel

/-- `Parser::if_statement`. -/
def pIfStatement (toks : Array Token) : Nat → Nat → Except JingError (Stmt × Nat)
  | 0, cur => .error (.parseError "out of fuel" (currentLine toks cur))
  | fuel + 1, cur => do
    let (cond, cur1) ← pExpression toks fuel cur
    let (thenB, cur2) ← pStatement toks fuel cur1
    match matchTok toks cur2 .elseK with
    | (true, cur3) => do
        let (elseB, cur4) ← pStatement toks fuel cur3
        .ok (.ifS cond thenB (some elseB), cur4)
    | (false, _) => .ok (.ifS cond thenB none, cur2)
termination_by structural fuel => fuel

/-- `Parser::while_statement`. -/
def pWhileStatement (toks : Array Token) : Nat → Nat → Except JingError (Stmt × Nat)
  | 0, cur => .error (.parseError "out of fuel" (currentLine toks cur))
  | fuel + 1, cur => do
    let (cond, cur1) ← pExpression toks fuel cur
    let (body, cur2) ← pStatement toks fuel cur1
    .ok (.whileS cond body, cur2)
termination_by structural fuel => fuel

/-- `Parser::return_statement`. -/
def pReturnStatement (toks : Array Token) : Nat → Nat → Except JingError (Stmt × Nat)
  | 0, cur => .error (.parseError "out of fuel" (currentLine toks cur))
  | fuel + 1, cur => do
    if checkTok toks cur .semicolon then do
      let cur1 ← consumeTok toks cur .semicolon "Expected ';' after return value"
      .ok (.returnS none, cur1)
    else do
      let (v, cur1) ← pExpression toks fuel cur
      let cur2 ← consumeTok toks cur1 .semicolon "Expected ';' after return value"
      .ok (.returnS (some v), cur2)

/-- `Parser::block_statement`. -/
def pBlockStatement (toks : Array Token) : Nat → Nat → Except JingError (Stmt × Nat)
  | 0, cur => .error (.parseError "out of fuel" (currentLine toks cur))
  | fuel + 1, cur => do
    let cur1 ← consumeTok toks cur .leftBrace "Expected '\x7b'"
    let (stmts, cur2) ← pBlock toks fuel cur1
    .ok (.block stmts, cur2)
termination_by structural fuel => fuel

/-- `Parser::block`: statements up to the closing brace. -/
def pBlock (toks : Array Token) : Nat → Nat → Except JingError (List Stmt × Nat)
  | 0, cur => .error (.parseError "out of fuel" (currentLine toks cur))
  | fuel + 1, cur =>
    if ¬ checkTok toks cur .rightBrace ∧ ¬ atEnd toks cur then
      match matchTok toks cur .newline with
      | (true, cur1) => pBlock toks fuel cur1
      | (false, _) => do
          let (s, cur1) ← pDeclaration toks fuel cur
          let (ss, cur2) ← pBlock toks fuel cur1
          .ok (s :: ss, cur2)
    else do
      let cur1 ← consumeTok toks cur .rightBrace "Expected '\x7d' after block"
      .ok ([], cur1)
termination_by structural fuel => fuel

/-- `Parser::expression_statement`, including the lowering of a bare
`print(e)` call to a dedicated `Print` statement. -/
def pExpressionStatement (toks : Array Token) : Nat → Nat → Except JingError (Stmt × Nat)
  | 0, cur => .error (.parseError "out of fuel" (currentLine toks cur))
  | fuel + 1, cur => do
    let (e, cur1) ← pExpression toks fuel cur
    match e with
    | .call (.var "print") [arg] => do
        let cur2 ← consumeTok toks cur1 .semicolon "Expected ';' after expression"
        .ok (.print arg, cur2)
    | _ => do
        let cur2 ← consumeTok toks cur1 .semicolon "Expected ';' after expression"
        .ok (.expression e, cur2)

/-- `Parser::expression`. -/
def pExpression (toks : Array Token) : Nat → Nat → Except JingError (Expr × Nat)
  | 0, cur => .error (.parseError "out of fuel" (currentLine toks cur))
  | fuel + 1, cur => pAssignment toks fuel cur
termination_by structural fuel => fuel

/-- `Parser::assignment` (right-associative; L-value must be a variable). -/
def pAssignment (toks : Array Token) : Nat → Nat → Except JingError (Expr × Nat)
  | 0, cur => .error (.parseError "out of fuel" (currentLine toks cur))
  | fuel + 1, cur => do
    let (e, cur1) ← pLogicalOr toks fuel cur
    match matchTok toks cur1 .equal with
    | (true, cur2) => do
        let (v, cur3) ← pAssignment toks fuel cur2
        match e with
        | .var name => .ok (.assign name v, cur3)
        | _ => .error (.parseError "Invalid assignment target" 0)
    | (false, _) => .ok (e, cur1)
termination_by structural fuel => fuel

/-- `Parser::logical_or`. -/
def pLogicalOr (toks : Array Token) : Nat → Nat → Except JingError (Expr × Nat)
  | 0, cur => .error (.parseError "out of fuel" (currentLine toks cur))
  | fuel + 1, cur => do
    let (e, cur1) ← pLogicalAnd toks fuel cur
    pOrLoop toks fuel e cur1
termination_by structural fuel => fuel

/-- The `while match_token(Or)` loop of `Parser::logical_or`. -/
def pOrLoop (toks : Array Token) : Nat → Expr → Nat → Except JingError (Expr × Nat)
  | 0, _, cur => .error (.parseError "out of fuel" (currentLine toks cur))
  | fuel + 1, e, cur =>
    match matchTok toks cur .orK with
    | (true, cur1) => do
        let (r, cur2) ← pLogicalAnd toks fuel cur1
        pOrLoop toks fuel (.logical e .or r) cur2
    | (false, _) => .ok (e, cur)
termination_by structural fuel => fuel

/-- `Parser::logical_and`. -/
def pLogicalAnd (toks : Array Token) : Nat → Nat → Except JingError (Expr × Nat)
  | 0, cur => .error (.parseError "out of fuel" (currentLine toks cur))
  | fuel + 1, cur => do
    let (e, cur1) ← pEquality toks fuel cur
    pAndLoop toks fuel e cur1
termination_by structural fuel => fuel

/-- The `while match_token(And)` loop of `Parser::logical_and`. -/
def pAndLoop (toks : Array Token) : Nat → Expr → Nat → Except JingError (Expr × Nat)
  | 0, _, cur => .error (.parseError "out of fuel" (currentLine toks cur))
  | fuel + 1, e, cur =>
    match matchTok toks cur .andK with
    | (true, cur1) => do
        let (r, cur2) ← pEquality toks fuel cur1
        pAndLoop toks fuel (.logical e .and r) cur2
    | (false, _) => .ok (e, cur)
termination_by structural fuel => fuel

/-- `Parser::equality`. -/
def pEquality (toks : Array Token) : Nat → Nat → Except JingError (Expr × Nat)
  | 0, cur => .error (.parseError "out of fuel" (currentLine toks cur))
  | fuel + 1, cur => do
    let (e, cur1) ← pComparison toks fuel cur
    pEqLoop toks fuel e cur1
termination_by structural fuel => fuel

def pEqLoop (toks : Array Token) : Nat → Expr → Nat → Except JingError (Expr × Nat)
  | 0, _, cur => .error (.parseError "out of fuel" (currentLine toks cur))
  | fuel + 1, e, cur =>
    match matchEqualityOp toks cur with
    | some (op, cur1) => do
        let (r, cur2) ← pComparison toks fuel cur1
        pEqLoop toks fuel (.binary e op r) cur2
    | none => .ok (e, cur)
termination_by structural fuel => fuel

/-- `Parser::comparison`. -/
def pComparison (toks : Array Token) : Nat → Nat → Except JingError (Expr × Nat)
  | 0, cur => .error (.parseError "out of fuel" (currentLine toks cur))
  | fuel + 1, cur => do
    let (e, cur1) ← pTerm toks fuel cur
    pCompLoop toks fuel e cur1
termination_by structural fuel => fuel

def pCompLoop (toks : Array Token) : Nat → Expr → Nat → Except JingError (Expr × Nat)
  | 0, _, cur => .error (.parseError "out of fuel" (currentLine toks cur))
  | fuel + 1, e, cur =>
    match matchComparisonOp toks cur with
    | some (op, cur1) => do
        let (r, cur2) ← pTerm toks fuel cur1
        pCompLoop toks fuel (.binary e op r) cur2
    | none => .ok (e, cur)
termination_by structural fuel => fuel

/-- `Parser::term`. -/
def pTerm (toks : Array Token) : Nat → Nat → Except JingError (Expr × Nat)
  | 0, cur => .error (.parseError "out of fuel" (currentLine toks cur))
  | fuel + 1, cur => do
    let (e, cur1) ← pFactor toks fuel cur
    pTermLoop toks fuel e cur1
termination_by structural fuel => fuel

def pTermLoop (toks : Array Token) : Nat → Expr → Nat → Except JingError (Expr × Nat)
  | 0, _, cur => .error (.parseError "out of fuel" (currentLine toks cur))
  | fuel + 1, e, cur =>
    match matchTermOp toks cur with
    | some (op, cur1) => do
        let (r, cur2) ← pFactor toks fuel cur1
        pTermLoop toks fuel (.binary e op r) cur2
    | none => .ok (e, cur)
termination_by structural fuel => fuel

/-- `Parser::factor`. -/
def pFactor (toks : Array Token) : Nat → Nat → Except JingError (Expr × Nat)
  | 0, cur => .error (.parseError "out of fuel" (currentLine toks cur))
  | fuel + 1, cur => do
    let (e, cur1) ← pUnary toks fuel cur
    pFactorLoop toks fuel e cur1
termination_by structural fuel => fuel

def pFactorLoop (toks : Array Token) : Nat → Expr → Nat → Except JingError (Expr × Nat)
  | 0, _, cur => .error (.parseError "out of fuel" (currentLine toks cur))
  | fuel + 1, e, cur =>
    match matchFactorOp toks cur with
    | some (op, cur1) => do
        let (r, cur2) ← pUnary toks fuel cur1
        pFactorLoop toks fuel (.binary e op r) cur2
    | none => .ok (e, cur)
termination_by structural fuel => fuel

/-- `Parser::unary` (right-associative). -/
def pUnary (toks : Array Token) : Nat → Nat → Except JingError (Expr × Nat)
  | 0, cur => .error (.parseError "out of fuel" (currentLine toks cur))
  | fuel + 1, cur =>
    match matchUnaryOp toks cur with
    | some (op, cur1) => do
        let (e, cur2) ← pUnary toks fuel cur1
        .ok (.unary op e, cur2)
    | none => pCall toks fuel cur
termination_by structural fuel => fuel

/-- `Parser::call`: a primary followed by any number of argument lists. -/
def pCall (toks : Array Token) : Nat → Nat → Except JingError (Expr × Nat)
  | 0, cur => .error (.parseError "out of fuel" (currentLine toks cur))
  | fuel + 1, cur => do
    let (e, cur1) ← pPrimary toks fuel cur
    pCallLoop toks fuel e cur1
termination_by structural fuel => fuel

def pCallLoop (toks : Array Token) : Nat → Expr → Nat → Except JingError (Expr × Nat)
  | 0, _, cur => .error (.parseError "out of fuel" (currentLine toks cur))
  | fuel + 1, e, cur =>
    match matchTok toks cur .leftParen with
    | (true, cur1) => do
        let (args, cur2) ←
          if checkTok toks cur1 .rightParen then .ok ([], cur1)
          else pArgs toks fuel cur1
        let cur3 ← consumeTok toks cur2 .rightParen "Expected ')' after arguments"
        pCallLoop toks fuel (.call e args) cur3
    | (false, _) => .ok (e, cur)
termination_by structural fuel => fuel

/-- The argument-list loop inside `Parser::call`. -/
def pArgs (toks : Array Token) : Nat → Nat → Except JingError (List Expr × Nat)
  | 0, cur => .error (.parseError "out of fuel" (currentLine toks cur))
  | fuel + 1, cur => do
    let (a, cur1) ← pExpression toks fuel cur
    match matchTok toks cur1 .comma with
    | (true, cur2) => do
        let (as1, cur3) ← pArgs toks fuel cur2
        .ok (a :: as1, cur3)
    | (false, _) => .ok ([a], cur1)
termination_by structural fuel => fuel

/-- `Parser::primary`. -/
def pPrimary (toks : Array Token) : Nat → Nat → Except JingError (Expr × Nat)
  | 0, cur => .error (.parseError "out of fuel" (currentLine toks cur))
  | fuel + 1, cur =>
    match matchTok toks cur .trueK with
    | (true, cur1) => .ok (.literal (.bool true), cur1)
    | (false, _) =>
    match matchTok toks cur .falseK with
    | (true, cur1) => .ok (.literal (.bool false), cur1)
    | (false, _) =>
    match matchTok toks cur .nilK with
    | (true, cur1) => .ok (.literal .nilL, cur1)
    | (false, _) =>
    match (peekTok toks cur).tokenType with
    | .number n => .ok (.literal (.number n), advTok toks cur)
    | .string s => .ok (.literal (.string s), advTok toks cur)
    | .identifier name => .ok (.var name, advTok toks cur)
    | _ =>
      match matchTok toks cur .leftParen with
      | (true, cur1) => do
          let (e, cur2) ← pExpression toks fuel cur1
          let cur3 ← consumeTok toks cur2 .rightParen "Expected ')' after expression"
          .ok (e, cur3)
      | (false, _) => .error (.parseError "Expected expression" (currentLine toks cur))
termination_by structural fuel => fuel

end

/-- `Parser::parse`: top-level declarations, skipping newlines. -/
def pProgram (toks : Array Token) : Nat → Nat → Except JingError (List Stmt)
  | 0, cur => .error (.parseError "out of fuel" (currentLine toks cur))
  | fuel + 1, cur =>
    if atEnd toks cur then .ok []
    else
      match matchTok toks cur .newline with
      | (true, cur1) => pProgram toks fuel cur1
      | (false, _) => do
          let (s, cur1) ← pDeclaration toks fuel cur
          let ss ← pProgram toks fuel cur1
          .ok (s :: ss)

/-- Whole-token-stream parse with ample fuel. -/
def parseTokens (ts : List Token) : Except JingError (List Stmt) :=
  pProgram ts.toArray (ts.length * 4 + 8) 0

/-! ## Compiler (src/compiler.rs) -/

/-- The `Compiler` struct (src/compiler.rs): chunk under construction,
the flat `locals` name list, and the scope-depth counter. -/
structure Compiler where
  chunk : Chunk
  locals : List String
  scopeDepth : Nat
deriving Repr, DecidableEq

namespace Compiler

def new : Compiler := ⟨Chunk.new, [], 0⟩

def emit (c : Compiler) (op : OpCode) : Compiler :=
  { c with chunk := c.chunk.emit op }

def emitConstant (c : Compiler) (v : Value) : Compiler :=
  { c with chunk := c.chunk.emitConstant v }

def currentAddress (c : Compiler) : Nat := c.chunk.currentAddress

def patchJump (c : Compiler) (address target : Nat) : Compiler :=
  { c with chunk := c.chunk.patchJump address target }

/-- `Compiler::begin_scope`. -/
def beginScope (c : Compiler) : Compiler := { c with scopeDepth := c.scopeDepth + 1 }

/-- `Compiler::end_scope`: decrements the depth and removes nothing — the
body is an acknowledged placeholder ("For now, we'll keep it simple and not
remove locals"). -/
def endScope (c : Compiler) : Compiler := { c with scopeDepth := c.scopeDepth - 1 }

end Compiler

/-- `BinaryOperator` → opcode (the match in
`Compiler::compile_binary_expression`). -/
def binOpCode : BinaryOperator → OpCode
  | .add => .add
  | .subtract => .subtract
  | .multiply => .multiply
  | .divide => .divide
  | .modulo => .modulo
  | .equal => .equal
  | .notEqual => .notEqual
  | .less => .less
  | .lessEqual => .lessEqual
  | .greater => .greater
  | .greaterEqual => .greaterEqual

/-- `LiteralValue` → runtime value (the match in
`Compiler::compile_expression`, literal arm). -/
def litValue : LiteralValue → Value
  | .number n => .number n
  | .string s => .string s
  | .bool b => .bool b
  | .nilL => .nil

mutual

/-- Modelled from the spec: the `Expr::Assign` arm of
`Compiler::compile_expression` is missing from src/compiler.rs (the match
there covers the other six `Expr` variants only, although the parser
produces `Expr::Assign`).  Spec §4.3, expression lowering: "Assignment:
compile value; emit `STORE name`." -/
def compileAssign : Nat → String → Expr → Compiler → Except JingError Compiler
  | 0, _, _, _ => .error (.compileError "out of fuel")
  | fuel + 1, name, value, c => do
      let c1 ← compileExpr fuel value c
      .ok (c1.emit (.store name))
termination_by structural fuel => fuel

/-- `Compiler::compile_expression` (src/compiler.rs), with the bodies of
`compile_binary_expression`, `compile_unary_expression`,
`compile_logical_expression` (short-circuit lowering with forward-jump
patching) and `compile_call_expression` (including the compile-time
handling of `print`, `len` and `str` callees) inlined into the match.
The fuel only makes the mutual recursion structural; it strictly exceeds
the expression depth wherever the functions are applied below. -/
def compileExpr : Nat → Expr → Compiler → Except JingError Compiler
  | 0, _, _ => .error (.compileError "out of fuel")
  | fuel + 1, e, c =>
    match e with
    | .literal lit => .ok (c.emitConstant (litValue lit))
    | .var name => .ok (c.emit (.load name))
    | .binary l op r => do
        let c1 ← compileExpr fuel l c
        let c2 ← compileExpr fuel r c1
        .ok (c2.emit (binOpCode op))
    | .unary op e1 => do
        let c1 ← compileExpr fuel e1 c
        match op with
        | .minus => .ok (c1.emit .negate)
        | .not => .ok (c1.emit .not)
    | .logical l .and r => do
        let c1 ← compileExpr fuel l c
        let jumpAddress := c1.currentAddress
        let c2 := (c1.emit (.jumpIfFalse 0)).emit .pop
        let c3 ← compileExpr fuel r c2
        .ok (c3.patchJump jumpAddress c3.currentAddress)
    | .logical l .or r => do
        let c1 ← compileExpr fuel l c
        let jumpAddress := c1.currentAddress
        let c2 := c1.emit (.jumpIfFalse 0)
        let skipRightJump := c2.currentAddress
        let c3 := c2.emit (.jump 0)
        let rightStart := c3.currentAddress
        let c4 := (c3.patchJump jumpAddress rightStart).emit .pop
        let c5 ← compileExpr fuel r c4
        .ok (c5.patchJump skipRightJump c5.currentAddress)
    | .call (.var cname) args =>
        -- `if let Expr::Variable(var) = call.callee` with `match var.name.as_str()`
        if cname = "print" then
          match args with
          | [a] => do
              let c1 ← compileExpr fuel a c
              .ok (c1.emit .print)
          | _ => .error (.compileError "print() expects exactly 1 argument")
        else if cname = "len" then
          match args with
          | [a] => do
              let _ ← compileExpr fuel a c
              .error (.compileError "len() not yet implemented")
          | _ => .error (.compileError "len() expects exactly 1 argument")
        else if cname = "str" then
          match args with
          | [a] => do
              let _ ← compileExpr fuel a c
              .error (.compileError "str() not yet implemented")
          | _ => .error (.compileError "str() expects exactly 1 argument")
        else do
          let c1 ← compileArgs fuel args c
          let c2 ← compileExpr fuel (.var cname) c1
          .ok (c2.emit (.call args.length))
    | .call callee args => do
        let c1 ← compileArgs fuel args c
        let c2 ← compileExpr fuel callee c1
        .ok (c2.emit (.call args.length))
    | .assign name value => compileAssign fuel name value c
termination_by structural fuel => fuel

/-- The argument loop of `Compiler::compile_call_expression`. -/
def compileArgs : Nat → List Expr → Compiler → Except JingError Compiler
  | _, [], c => .ok c
  | 0, _ :: _, _ => .error (.compileError "out of fuel")
  | fuel + 1, a :: rest, c => do
      let c1 ← compileExpr fuel a c
      compileArgs fuel rest c1
termination_by structural fuel => fuel

end

mutual

/-- `Compiler::compile_statement` (src/compiler.rs).  Fuel as in
`compileExpr`; expression compilation receives the same (decremented)
budget. -/
def compileStmt : Nat → Stmt → Compiler → Except JingError Compiler
  | 0, _, _ => .error (.compileError "out of fuel")
  | fuel + 1, s, c =>
    match s with
    | .expression e => do
        let c1 ← compileExpr (fuel + 1) e c
        .ok (c1.emit .pop)
    | .letS name init => do
        let c1 ← compileExpr (fuel + 1) init c
        let c2 := c1.emit (.store name)
        .ok (if c2.locals.contains name then c2
             else { c2 with locals := c2.locals ++ [name] })
    | .print e => do
        let c1 ← compileExpr (fuel + 1) e c
        .ok (c1.emit .print)
    | .block stmts => do
        let c1 ← compileStmts fuel stmts c.beginScope
        .ok c1.endScope
    | .ifS cond thenB elseB => do
        let c1 ← compileExpr (fuel + 1) cond c
        let thenJump := c1.currentAddress
        let c2 := (c1.emit (.jumpIfFalse 0)).emit .pop
        let c3 ← compileStmt fuel thenB c2
        match elseB with
        | some els => do
            let elseJump := c3.currentAddress
            let c4 := c3.emit (.jump 0)
            let elseStart := c4.currentAddress
            let c5 := (c4.patchJump thenJump elseStart).emit .pop
            let c6 ← compileStmt fuel els c5
            .ok (c6.patchJump elseJump c6.currentAddress)
        | none =>
            let endAddress := c3.currentAddress
            .ok ((c3.patchJump thenJump endAddress).emit .pop)
    | .whileS cond body => do
        let loopStart := c.currentAddress
        let c1 ← compileExpr (fuel + 1) cond c
        let exitJump := c1.currentAddress
        let c2 := (c1.emit (.jumpIfFalse 0)).emit .pop
        let c3 ← compileStmt fuel body c2
        let c4 := c3.emit (.jump loopStart)
        let endAddress := c4.currentAddress
        .ok ((c4.patchJump exitJump endAddress).emit .pop)
    | .function name params body => do
        let skipJump := c.currentAddress
        let c1 := c.emit (.jump 0)
        let functionStart := c1.currentAddress
        let fi : FunctionInfo :=
          ⟨name, params.length, functionStart, params⟩
        let c2 := { c1 with chunk :=
          { c1.chunk with functions := (name, fi) :: c1.chunk.functions } }
        let c3 := { c2.beginScope with locals := c2.locals ++ params }
        let c4 ← compileStmt fuel body c3
        let c5 := (c4.emitConstant .nil).emit .ret
        let c6 := c5.endScope
        let functionEnd := c6.currentAddress
        let c7 := c6.patchJump skipJump functionEnd
        let c8 := c7.emitConstant (.function name params.length functionStart)
        .ok (c8.emit (.store name))
    | .returnS value => do
        let c1 ←
          match value with
          | some v => compileExpr (fuel + 1) v c
          | none => .ok (c.emitConstant .nil)
        .ok (c1.emit .ret)
termination_by structural fuel => fuel

/-- The statement loop of `Stmt::Block` compilation. -/
def compileStmts : Nat → List Stmt → Compiler → Except JingError Compiler
  | _, [], c => .ok c
  | 0, _ :: _, _ => .error (.compileError "out of fuel")
  | fuel + 1, s :: rest, c => do
      let c1 ← compileStmt fuel s c
      compileStmts fuel rest c1
termination_by structural fuel => fuel

end

/-- `Compiler::compile` (src/compiler.rs): compile the statements, then a
trailing `Halt`.  Fuel strictly exceeds the statement-nesting depth in
every use below. -/
def compileProgram (fuel : Nat) (stmts : List Stmt) : Except JingError Chunk := do
  let c ← compileStmts fuel stmts Compiler.new
  .ok (c.emit .halt).chunk

/-! ## VM (src/vm.rs)

The value stack is a head-first list: the TOP of the Rust `Vec` is the
HEAD here, so Rust's `stack[len - 1 - d]` (`peek_at d`) is `stack.get? d`.
`output` collects the lines written by `PRINT` (`println!`), in order.
`trace` is pure instrumentation recording the index of every executed
instruction (most recent first); no instruction reads it. -/

/-- `CallFrame` (src/vm.rs). -/
structure CallFrame where
  functionName : String
  returnAddress : Nat
  stackBase : Nat
deriving Repr, DecidableEq

/-- The state of `struct VM` (src/vm.rs) plus the observable output and the
ghost trace. -/
structure VMState where
  chunk : Chunk
  ip : Nat
  stack : List Value
  globals : Environment
  callStack : List CallFrame
  output : List String
  trace : List Nat
deriving Repr, DecidableEq

/-- One registered intrinsic: the `BuiltinFunction` trait object
(src/features/mod.rs) as seen by the VM — an arity and a call function. -/
structure BuiltinImpl where
  arity : Nat
  call : List Value → Except JingError Value

/-- The read-only intrinsic registry (src/registry/mod.rs,
`get_builtin`), passed to the VM as an explicit parameter. -/
abbrev Registry := String → Option BuiltinImpl

/-- A registry with nothing registered (`jing::init` not called). -/
def emptyRegistry : Registry := fun _ => none

/-- Result of executing one instruction: continue, break out of the run
loop (`Halt`, top-level `Return`, or instruction pointer past the end), or
stop with a runtime error.  The carried state reflects all mutations made
before the error, exactly as the Rust `&mut self` does. -/
inductive StepRes where
  | next (s : VMState)
  | halted (s : VMState)
  | failed (s : VMState) (e : JingError)
deriving Repr, DecidableEq

/-- `Vec::truncate(base)`: keep the bottom `base` stack slots.  In the
head-first representation the bottom slots are the list's tail end. -/
def truncStack (st : List Value) (base : Nat) : List Value :=
  if st.length ≤ base then st else st.drop (st.length - base)

/-- `VM::get_function_args` (src/vm.rs): argument `i` is the stack slot
`len - arity - 1 + i` counted from the bottom, i.e. index `arity - i` from
the top.  (Rust would panic on out-of-range; unreachable for chunks made by
the compiler, which pushes the arguments before the callee.) -/
def getFunctionArgs (st : List Value) (arity : Nat) : List Value :=
  (List.range arity).map (fun i => st.getD (arity - i) Value.nil)

/-- The parameter-binding loop of `VM::call_function`: for each
`(i, param)` with `i < arity`, define `param := args[i]` in the (global)
environment. -/
def bindParams (env : Environment) (locals : List String) (args : List Value)
    (arity : Nat) : Environment :=
  go env locals 0
where
  go (env : Environment) : List String → Nat → Environment
    | [], _ => env
    | p :: ps, i =>
        go (if i < arity then env.define p (args.getD i .nil) else env) ps (i + 1)

/-- `VM::call_function` (src/vm.rs).  `s` already has `ip` advanced past
the `Call` instruction.  The callee is `peek_at(0)` — the TOP of the
stack.  For a user function: optional parameter binding into the global
environment, a new call frame with `stack_base = len - arity - 1`, jump to
the entry, then pop `arity + 1` slots.  The modelled `builtinFunction`
value re-consults the registry by name (the Rust value carries the `Arc`
handle obtained from that same read-only registry, so the lookup agrees;
the `none` fallback is unreachable for states the VM itself builds). -/
def callFunction (reg : Registry) (s : VMState) (arity : Nat) : StepRes :=
  match s.stack with
  | [] => .failed s (.runtimeError "Stack index out of bounds")
  | f :: _ =>
    match f with
    | .function name expectedArity chunkStart =>
        if arity ≠ expectedArity then
          .failed s (.runtimeError ("Function '" ++ name ++ "' expects " ++
            toString expectedArity ++ " arguments, got " ++ toString arity))
        else
          let s2 :=
            match funcLookup name s.chunk.functions with
            | some fi =>
                { s with globals :=
                    bindParams s.globals fi.locals (getFunctionArgs s.stack arity) arity }
            | none => s
          let frame : CallFrame := ⟨name, s2.ip, s2.stack.length - arity - 1⟩
          .next { s2 with
                  callStack := frame :: s2.callStack,
                  ip := chunkStart,
                  stack := s2.stack.drop (arity + 1) }
    | .builtinFunction name =>
        match reg name with
        | some impl =>
            if arity ≠ impl.arity then
              .failed s (.runtimeError ("Builtin function '" ++ name ++ "' expects " ++
                toString impl.arity ++ " arguments, got " ++ toString arity))
            else
              match impl.call (getFunctionArgs s.stack arity) with
              | .error e => .failed s e
              | .ok result =>
                  .next { s with stack := result :: s.stack.drop (arity + 1) }
        | none => .failed s (.runtimeError ("Builtin function '" ++ name ++ "' not found"))
    | _ => .failed s (.runtimeError "Can only call functions")

/-- A binary-operator step: pop `b`, pop `a`, apply, push.  Underflow and
operator errors leave the stack as Rust's sequential `pop()?` calls do. -/
def binStep (s : VMState) (f : Value → Value → Except JingError Value) : StepRes :=
  match s.stack with
  | [] => .failed s (.runtimeError "Stack underflow")
  | [_] => .failed { s with stack := [] } (.runtimeError "Stack underflow")
  | b :: a :: rest =>
      match f a b with
      | .ok v => .next { s with stack := v :: rest }
      | .error e => .failed { s with stack := rest } e

/-- One iteration of `VM::run` (src/vm.rs): fetch, advance `ip`, dispatch. -/
def vmStep (reg : Registry) (s : VMState) : StepRes :=
  match s.chunk.code.get? s.ip with
  | none => .halted s
  | some instr =>
    let s := { s with ip := s.ip + 1, trace := s.ip :: s.trace }
    match instr with
    | .constant index =>
        match s.chunk.constants.get? index with
        | some v => .next { s with stack := v :: s.stack }
        | none => .failed s (.runtimeError "Invalid constant index")
    | .load name =>
        match s.globals.get name with
        | .ok v => .next { s with stack := v :: s.stack }
        | .error _ =>
          match funcLookup name s.chunk.functions with
          | some fi =>
              .next { s with stack :=
                Value.function fi.name fi.arity fi.startAddress :: s.stack }
          | none =>
            match reg name with
            | some _ => .next { s with stack := Value.builtinFunction name :: s.stack }
            | none =>
                .failed s (.runtimeError
                  ("Undefined variable or function '" ++ name ++ "'"))
    | .store name =>
        match s.stack with
        | [] => .failed s (.runtimeError "Stack underflow")
        | v :: rest =>
            .next { s with stack := rest, globals := s.globals.define name v }
    | .pop =>
        match s.stack with
        | [] => .failed s (.runtimeError "Stack underflow")
        | _ :: rest => .next { s with stack := rest }
    | .add => binStep s Value.add
    | .subtract => binStep s Value.subtract
    | .multiply => binStep s Value.multiply
    | .divide => binStep s Value.divide
    | .modulo => binStep s Value.modulo
    | .negate =>
        match s.stack with
        | [] => .failed s (.runtimeError "Stack underflow")
        | a :: rest =>
            match a.negate with
            | .ok v => .next { s with stack := v :: rest }
            | .error e => .failed { s with stack := rest } e
    | .equal => binStep s (fun a b => .ok (.bool (a.equals b)))
    | .notEqual => binStep s (fun a b => .ok (.bool (! a.equals b)))
    | .less => binStep s (fun a b => (a.lessThan b).map Value.bool)
    | .lessEqual =>
        binStep s (fun a b => (a.lessThan b).map (fun lt => Value.bool (lt || a.equals b)))
    | .greater => binStep s (fun a b => (a.greaterThan b).map Value.bool)
    | .greaterEqual =>
        binStep s (fun a b => (a.greaterThan b).map (fun gt => Value.bool (gt || a.equals b)))
    | .not =>
        match s.stack with
        | [] => .failed s (.runtimeError "Stack underflow")
        | a :: rest => .next { s with stack := a.notOp :: rest }
    | .and => binStep s (fun a b => .ok (if a.isTruthy then b else a))
    | .or => binStep s (fun a b => .ok (if a.isTruthy then a else b))
    | .jump address => .next { s with ip := address }
    | .jumpIfFalse address =>
        match s.stack with
        | [] => .failed s (.runtimeError "Empty stack")
        | c :: _ => .next (if c.isFalsy then { s with ip := address } else s)
    | .call arity => callFunction reg s arity
    | .ret =>
        match s.callStack with
        | [] => .halted s
        | frame :: frames =>
            match s.stack with
            | [] => .failed { s with callStack := frames } (.runtimeError "Stack underflow")
            | rv :: rest =>
                .next { s with
                        stack := rv :: truncStack rest frame.stackBase,
                        callStack := frames,
                        ip := frame.returnAddress }
    | .print =>
        match s.stack with
        | [] => .failed s (.runtimeError "Stack underflow")
        | v :: rest =>
            .next { s with stack := rest, output := s.output ++ [v.display] }
    | .halt => .halted s

/-- The `VM::run` loop, fueled.  `none` means the fuel ran out (the claims
below always supply enough). -/
def runVM (reg : Registry) : Nat → VMState → Option (VMState × Except JingError Unit)
  | 0, _ => none
  | fuel + 1, s =>
    match vmStep reg s with
    | .next s2 => runVM reg fuel s2
    | .halted s2 => some (s2, .ok ())
    | .failed s2 e => some (s2, .error e)

/-- `VM::new` followed by `interpret(chunk)` entry. -/
def initVM (ch : Chunk) : VMState :=
  ⟨ch, 0, [], Environment.new, [], [], []⟩

/-- The whole pipeline of `run_code` (src/vm.rs tests) / `main.rs`:
tokenize, parse, compile, execute, with an empty registry.  The outer
`Except` is a front-end failure; the `Option` is VM fuel; the inner pair is
the final VM state and the run result. -/
def runSource (src : String) (vmFuel : Nat) :
    Except JingError (Option (VMState × Except JingError Unit)) := do
  let toks ← tokenize src
  let stmts ← parseTokens toks
  let ch ← compileProgram (toks.length + 8) stmts
  .ok (runVM emptyRegistry vmFuel (initVM ch))

/-! ## Observation helpers for whole-pipeline theorems -/

/-- Output lines and run result of a pipeline execution. -/
def runObs (src : String) (vmFuel : Nat) :
    Except JingError (Option (List String × Except JingError Unit)) :=
  (runSource src vmFuel).map (fun o => o.map (fun r => (r.1.output, r.2)))

/-- Final value of a global binding after a pipeline execution
(`VM::get_global`). -/
def runGlobal (src : String) (vmFuel : Nat) (name : String) :
    Except JingError (Option (Except JingError Value)) :=
  (runSource src vmFuel).map (fun o => o.map (fun r => r.1.globals.get name))

/-- Stack slot `j` counted from the BOTTOM of the stack (Rust's `stack[j]`),
`sp - 1 - j` from the top, i.e. index `len - 1 - j` of the head-first list. -/
def slotFromBottom (st : List Value) (j : Nat) : Option Value :=
  st.get? (st.length - 1 - j)

/-- Code/constant-pool extension order on compiler states: everything the
first state had emitted is still in place (same positions, same contents)
in the second. -/
def CExt (c c' : Compiler) : Prop :=
  c'.chunk.code.take c.chunk.code.length = c.chunk.code ∧
  c'.chunk.constants.take c.chunk.constants.length = c.chunk.constants

/-! ## Claim theorems -/

/-- Claim C1 (code bug): the claim — and the spec's end-to-end table —
expect `let i = 0; while i < 3 \x7b print(i); i = i + 1; \x7d` to print the
three lines `0`, `1`, `2` and succeed.  The pipeline instead prints only
`0` and aborts with the runtime error "Stack underflow": `STORE` pops the
assigned value, so the `POP` the compiler emits after the assignment
expression statement finds an empty stack.  The store itself did happen:
`i` is `1` at the moment of the error. -/
theorem c1_while_pipeline_underflows_after_first_iteration :
    runObs "let i = 0; while i < 3 \x7b print(i); i = i + 1; \x7d" 200 =
      .ok (some (["0"], .error (.runtimeError "Stack underflow"))) ∧
    runGlobal "let i = 0; while i < 3 \x7b print(i); i = i + 1; \x7d" 200 "i" =
      .ok (some (.ok (.number ⟨1, 1⟩))) := by decide

/-- Claim C2, counterexample: executing the assignment statement `x = 5;`
with `x` bound in no environment frame does NOT fail with an
undefined-variable error and DOES create a binding: afterwards `x` is bound
to `5` in the global scope.  (The run does end in a runtime error, but it
is the "Stack underflow" of the statement's trailing `POP`, raised after
the store already succeeded.) -/
theorem c2_assignment_to_unbound_creates_binding :
    runGlobal "x = 5;" 100 "x" = .ok (some (.ok (.number ⟨5, 1⟩))) ∧
    runObs "x = 5;" 100 = .ok (some ([], .error (.runtimeError "Stack underflow"))) := by
  decide

/-- Claim C3, counterexample: `let a = 1; fn f(a) \x7b return 0; \x7d f(2);`
completes successfully, and afterwards the caller's `a` — equal to a
parameter name of `f` — is bound to the argument `2`, not to the value `1`
it held immediately before the call: parameters are bound in the global
environment and no scope is popped on `RETURN`. -/
theorem c3_call_overwrites_caller_binding :
    runObs "let a = 1; fn f(a) \x7b return 0; \x7d f(2);" 300 = .ok (some ([], .ok ())) ∧
    runGlobal "let a = 1; fn f(a) \x7b return 0; \x7d f(2);" 300 "a" =
      .ok (some (.ok (.number ⟨2, 1⟩))) := by decide

/-- Claim C4 (code bug): after `\x7b let x = 5; \x7d let y = x;` the load
of `x` outside the block succeeds with the value bound INSIDE the block
(no outer binding of `x` ever existed), and `y` becomes `5`: compile-time
`end_scope` is an explicit placeholder that removes nothing, and the VM
pushes no runtime scopes, so block-local bindings survive the block. -/
theorem c4_block_binding_survives_block :
    runObs "\x7b let x = 5; \x7d let y = x;" 100 = .ok (some ([], .ok ())) ∧
    runGlobal "\x7b let x = 5; \x7d let y = x;" 100 "x" = .ok (some (.ok (.number ⟨5, 1⟩))) ∧
    runGlobal "\x7b let x = 5; \x7d let y = x;" 100 "y" = .ok (some (.ok (.number ⟨5, 1⟩))) := by
  decide

/-- Claim C5 (code bug): for an `if` WITHOUT an `else`, the truthy path
falls through into the trailing `POP` that was meant for the falsy path
only, popping twice: `if true \x7b \x7d` aborts with "Stack underflow".
With an `else` branch the emitted code is balanced and the same program
shape succeeds. -/
theorem c5_if_true_without_else_underflows :
    runObs "if true \x7b \x7d" 100 = .ok (some ([], .error (.runtimeError "Stack underflow"))) ∧
    runObs "if true \x7b \x7d else \x7b \x7d" 100 = .ok (some ([], .ok ())) := by decide

/-- Claim C6, counterexample: when the VM executes `CALL(1)`, the callee
is NOT taken from slot `sp - n - 1` (the slot below the argument slots).
With the function value in that slot (stack bottom→top: `g`, `7`) the call
fails with "Can only call functions" — the VM inspected the TOP slot,
which holds the number `7`.  With the layout the compiler actually
produces (bottom→top: `7`, `g`; callee on TOP) the same call succeeds,
binding parameter `p` to `7`. -/
theorem c6_callee_slot_counterexample :
    vmStep emptyRegistry
        ⟨⟨[.call 1], [], [("g", ⟨"g", 1, 5, ["p"]⟩)]⟩, 0,
         [.number ⟨7, 1⟩, .function "g" 1 5], Environment.new, [], [], []⟩ =
      .failed
        ⟨⟨[.call 1], [], [("g", ⟨"g", 1, 5, ["p"]⟩)]⟩, 1,
         [.number ⟨7, 1⟩, .function "g" 1 5], Environment.new, [], [], [0]⟩
        (.runtimeError "Can only call functions") ∧
    vmStep emptyRegistry
        ⟨⟨[.call 1], [], [("g", ⟨"g", 1, 5, ["p"]⟩)]⟩, 0,
         [.function "g" 1 5, .number ⟨7, 1⟩], Environment.new, [], [], []⟩ =
      .next
        ⟨⟨[.call 1], [], [("g", ⟨"g", 1, 5, ["p"]⟩)]⟩, 5,
         [], ⟨[[("p", .number ⟨7, 1⟩)]]⟩, [⟨"g", 1, 0⟩], [], [0]⟩ := by decide

/-- Looking up a name right after inserting it finds the inserted value. -/
theorem scopeGet_scopeInsert (name : String) (v : Value) (sc : Scope) :
    scopeGet name (scopeInsert name v sc) = some v := by
  induction sc with
  | nil => simp [scopeInsert, scopeGet]
  | cons p t ih =>
      by_cases h : p.1 = name
      · simp [scopeInsert, scopeGet, h]
      · simp [scopeInsert, scopeGet, h, ih]

/-- `define` never changes the number of scopes (no scope is pushed). -/
theorem define_scopes_length (env : Environment) (name : String) (v : Value) :
    (env.define name v).scopes.length = env.scopes.length := by
  match env with
  | ⟨[]⟩ => rfl
  | ⟨sc :: scs⟩ => rfl

/-- The parameter-binding loop never changes the number of scopes. -/
theorem bindParams_scopes_length (env : Environment) (locals : List String)
    (args : List Value) (arity : Nat) :
    (bindParams env locals args arity).scopes.length = env.scopes.length := by
  suffices h : ∀ (ps : List String) (e : Environment) (i : Nat),
      (bindParams.go args arity e ps i).scopes.length = e.scopes.length by
    exact h locals env 0
  intro ps
  induction ps with
  | nil => intro e i; rfl
  | cons p t ih =>
      intro e i
      rw [bindParams.go, ih]
      split <;> simp [define_scopes_length]

/-- Claim C2, amended: executing `STORE name` pops the value and defines
the name in the innermost environment scope via `Environment::define`; it
succeeds whether or not the name was already bound anywhere (no
undefined-variable error is possible), and afterwards the name resolves to
the stored value.  `Environment::set` — the update-nearest-or-fail
operation the claim describes — plays no part in the step. -/
theorem c2_store_always_defines :
    (∀ (reg : Registry) (s : VMState) (name : String) (v : Value) (rest : List Value),
      s.chunk.code[s.ip]? = some (.store name) →
      s.stack = v :: rest →
      vmStep reg s =
        .next { s with
                ip := s.ip + 1, trace := s.ip :: s.trace,
                stack := rest, globals := s.globals.define name v }) ∧
    (∀ (env : Environment) (sc : Scope) (scs : List Scope) (name : String) (v : Value),
      env.scopes = sc :: scs →
      (env.define name v).scopes = scopeInsert name v sc :: scs ∧
      (env.define name v).get name = .ok v) := by
  constructor
  · intro reg s name v rest h1 h2
    simp [vmStep, h1, h2]
  · intro env sc scs name v h
    have hdef : (env.define name v).scopes = scopeInsert name v sc :: scs := by
      simp [Environment.define, h]
    refine ⟨hdef, ?_⟩
    simp [Environment.get, hdef, Environment.get.go, scopeGet_scopeInsert]

/-- Claim C2 amended, witness: storing `5` to the never-declared `x` on a
one-instruction chunk succeeds, binds `x` in the innermost scope, and the
binding is readable back. -/
theorem c2_store_always_defines_witness :
    vmStep emptyRegistry
        ⟨⟨[.store "x"], [], []⟩, 0, [.number ⟨5, 1⟩], Environment.new, [], [], []⟩ =
      .next ⟨⟨[.store "x"], [], []⟩, 1, [], ⟨[[("x", .number ⟨5, 1⟩)]]⟩, [], [], [0]⟩ ∧
    (Environment.new.define "x" (.number ⟨5, 1⟩)).scopes = [[("x", .number ⟨5, 1⟩)]] ∧
    (Environment.new.define "x" (.number ⟨5, 1⟩)).get "x" = .ok (.number ⟨5, 1⟩) := by
  refine ⟨?_, ?_, ?_⟩
  · exact c2_store_always_defines.1 emptyRegistry _ "x" (.number ⟨5, 1⟩) [] rfl rfl
  · exact (c2_store_always_defines.2 Environment.new [] [] "x" (.number ⟨5, 1⟩) rfl).1
  · exact (c2_store_always_defines.2 Environment.new [] [] "x" (.number ⟨5, 1⟩) rfl).2

/-- Claim C3, amended: on `CALL(n)` of a user function the parameters are
bound via `Environment::define` into the EXISTING innermost scope — the
scope count does not change, no fresh scope is pushed — and on `RETURN`
the value stack is truncated to the recorded frame base and the IP
restored while the environment is left completely untouched (no scope is
popped).  Consequently a caller binding that shares a parameter's name
keeps the argument value after the call (see the counterexample). -/
theorem c3_params_bound_globally_return_pops_no_scope :
    (∀ (reg : Registry) (s : VMState) (n : Nat) (fname : String) (cs : Nat)
       (rest : List Value) (fi : FunctionInfo),
      s.chunk.code[s.ip]? = some (.call n) →
      s.stack = .function fname n cs :: rest →
      funcLookup fname s.chunk.functions = some fi →
      vmStep reg s =
        .next { s with
                ip := cs, trace := s.ip :: s.trace,
                globals := bindParams s.globals fi.locals (getFunctionArgs s.stack n) n,
                callStack := ⟨fname, s.ip + 1, s.stack.length - n - 1⟩ :: s.callStack,
                stack := s.stack.drop (n + 1) } ∧
      (bindParams s.globals fi.locals (getFunctionArgs s.stack n) n).scopes.length =
        s.globals.scopes.length) ∧
    (∀ (reg : Registry) (s : VMState) (frame : CallFrame) (frames : List CallFrame)
       (rv : Value) (rest : List Value),
      s.chunk.code[s.ip]? = some .ret →
      s.callStack = frame :: frames →
      s.stack = rv :: rest →
      vmStep reg s =
        .next { s with
                ip := frame.returnAddress, trace := s.ip :: s.trace,
                stack := rv :: truncStack rest frame.stackBase,
                callStack := frames }) := by
  constructor
  · intro reg s n fname cs rest fi h1 h2 h3
    refine ⟨?_, bindParams_scopes_length _ _ _ _⟩
    simp [vmStep, h1, h2, callFunction, h3]
  · intro reg s frame frames rv rest h1 h2 h3
    simp [vmStep, h1, h2, h3]

/-- Claim C3 amended, witness: calling a zero-parameter function `h` from
a one-instruction chunk pushes a frame and jumps to its entry without
touching the environment's scope count, and a `RETURN` with a pending
frame restores the IP and leaves the environment exactly as it was. -/
theorem c3_params_bound_globally_return_pops_no_scope_witness :
    vmStep emptyRegistry
        ⟨⟨[.call 0], [], [("h", ⟨"h", 0, 3, []⟩)]⟩, 0,
         [.function "h" 0 3], Environment.new, [], [], []⟩ =
      .next ⟨⟨[.call 0], [], [("h", ⟨"h", 0, 3, []⟩)]⟩, 3,
             [], Environment.new, [⟨"h", 1, 0⟩], [], [0]⟩ ∧
    vmStep emptyRegistry
        ⟨⟨[.ret], [], []⟩, 0, [.nil], Environment.new, [⟨"h", 7, 0⟩], [], []⟩ =
      .next ⟨⟨[.ret], [], []⟩, 7, [.nil], Environment.new, [], [], [0]⟩ := by
  constructor
  · exact (c3_params_bound_globally_return_pops_no_scope.1 emptyRegistry
      ⟨⟨[.call 0], [], [("h", ⟨"h", 0, 3, []⟩)]⟩, 0,
       [.function "h" 0 3], Environment.new, [], [], []⟩ 0 "h" 3 []
      ⟨"h", 0, 3, []⟩ rfl rfl rfl).1
  · exact c3_params_bound_globally_return_pops_no_scope.2 emptyRegistry
      ⟨⟨[.ret], [], []⟩, 0, [.nil], Environment.new, [⟨"h", 7, 0⟩], [], []⟩
      ⟨"h", 7, 0⟩ [] .nil [] rfl rfl rfl

/-- Claim C8: scanning a string literal body translates the escape
sequences `\n`, `\t`, `\r`, `\\`, `\"` into the corresponding characters
(first conjunct); any other backslash escape passes through as a backslash
followed by the next character (second conjunct); and every error the scan
can produce — reached exactly when input ends before the closing quote —
is `LexError "Unterminated string"` carrying the 1-based line `sl` of the
opening quote (third conjunct). -/
theorem c8_string_escapes_and_unterminated_line :
    (∀ (sl line : Nat) (cs : List Char) (acc : String),
      scanStr sl ('\\' :: 'n' :: cs) line acc = scanStr sl cs line (acc.push '\n') ∧
      scanStr sl ('\\' :: 't' :: cs) line acc = scanStr sl cs line (acc.push '\t') ∧
      scanStr sl ('\\' :: 'r' :: cs) line acc = scanStr sl cs line (acc.push '\r') ∧
      scanStr sl ('\\' :: '\\' :: cs) line acc = scanStr sl cs line (acc.push '\\') ∧
      scanStr sl ('\\' :: '"' :: cs) line acc = scanStr sl cs line (acc.push '"')) ∧
    (∀ (sl line : Nat) (cs : List Char) (acc : String) (e : Char),
      escapeChar e = none →
      scanStr sl ('\\' :: e :: cs) line acc =
        scanStr sl cs line ((acc.push '\\').push e)) ∧
    (∀ (sl : Nat) (cs : List Char) (line : Nat) (acc : String) (err : JingError),
      scanStr sl cs line acc = .error err →
      err = .lexError "Unterminated string" sl) := by
  refine ⟨?_, ?_, ?_⟩
  · intro sl line cs acc
    exact ⟨rfl, rfl, rfl, rfl, rfl⟩
  · intro sl line cs acc e he
    have hstep : scanStr sl ('\\' :: e :: cs) line acc =
        match escapeChar e with
        | some t => scanStr sl cs line (acc.push t)
        | none => scanStr sl cs line ((acc.push '\\').push e) := rfl
    rw [hstep, he]
  · intro sl
    suffices H : ∀ (n : Nat) (cs : List Char), cs.length ≤ n →
        ∀ (line : Nat) (acc : String) (err : JingError),
          scanStr sl cs line acc = .error err →
          err = .lexError "Unterminated string" sl by
      intro cs line acc err h
      exact H cs.length cs le_rfl line acc err h
    intro n
    induction n with
    | zero =>
        intro cs hlen line acc err h
        match cs, hlen with
        | [], _ =>
            rw [scanStr.eq_1] at h
            exact (Except.error.inj h).symm
    | succ n ih =>
        intro cs hlen line acc err h
        match cs with
        | [] =>
            rw [scanStr.eq_1] at h
            exact (Except.error.inj h).symm
        | c :: rest =>
            by_cases hq : c = '"'
            · subst hq
              rw [scanStr.eq_2] at h
              exact absurd h (by simp)
            · rw [scanStr.eq_3 sl line acc c rest (fun hh => hq hh)] at h
              by_cases hbs : c = '\\' ∧ rest ≠ []
              · rw [dif_pos hbs] at h
                match rest, hbs.2 with
                | e :: rest2, _ =>
                    have h2 : (match escapeChar e with
                        | some t =>
                            scanStr sl rest2 (if c = '\n' then line + 1 else line)
                              (acc.push t)
                        | none =>
                            scanStr sl rest2 (if c = '\n' then line + 1 else line)
                              ((acc.push '\\').push e)) = Except.error err := h
                    cases hesc : escapeChar e <;> rw [hesc] at h2 <;>
                      exact ih rest2 (by simp at hlen; omega) _ _ _ h2
              · rw [dif_neg hbs] at h
                exact ih rest (by simp at hlen; omega) _ _ _ h

/-- Claim C8, witness: on `x\q` followed by end of input (an unknown
escape and no closing quote, the quote having opened on line 7), the scan
passes the backslash through and then fails with the unterminated-string
error at line 7. -/
theorem c8_string_escapes_and_unterminated_line_witness :
    scanStr 7 ['\\', 'q'] 3 "x" = scanStr 7 [] 3 "x\\q" ∧
    Except.error (.lexError "Unterminated string" 7) =
      (.error (.lexError "Unterminated string" 7) :
        Except JingError (String × Nat × List Char)) ∧
    scanStr 7 ['\\', 'n'] 3 "x" = scanStr 7 [] 3 "x\n" := by
  refine ⟨?_, ?_, ?_⟩
  · exact c8_string_escapes_and_unterminated_line.2.1 7 3 [] "x" 'q' rfl
  · have h := c8_string_escapes_and_unterminated_line.2.2 7 [] 3 "x\\q"
      (.lexError "Unterminated string" 7) rfl
    rw [h]
  · exact (c8_string_escapes_and_unterminated_line.1 7 3 [] "x").1

/-- Claim C6, amended: when the VM executes `CALL(n)` the callee is the
TOP stack slot — `peek_at(0)`, bottom-based slot `sp - 1` — and the `n`
arguments sit below it: `get_function_args` reads argument `i` from the
bottom-based slot `sp - n - 1 + i` (second conjunct), and any
non-callable value on TOP of the stack makes the call fail with "Can only
call functions", whatever sits in slot `sp - n - 1` (first conjunct). -/
theorem c6_callee_on_top_args_below :
    (∀ (reg : Registry) (s : VMState) (n : Nat) (v : Value) (rest : List Value),
      s.chunk.code[s.ip]? = some (.call n) →
      s.stack = v :: rest →
      (∀ fname ar cs, v ≠ .function fname ar cs) →
      (∀ bn, v ≠ .builtinFunction bn) →
      vmStep reg s = .failed { s with ip := s.ip + 1, trace := s.ip :: s.trace }
        (.runtimeError "Can only call functions")) ∧
    (∀ (st : List Value) (n i : Nat), n + 1 ≤ st.length → i < n →
      (getFunctionArgs st n)[i]? = slotFromBottom st (st.length - n - 1 + i)) := by
  constructor
  · intro reg s n v rest h1 h2 hf hb
    match v, hf, hb with
    | .nil, _, _ => simp [vmStep, h1, h2, callFunction]
    | .bool b, _, _ => simp [vmStep, h1, h2, callFunction]
    | .number q, _, _ => simp [vmStep, h1, h2, callFunction]
    | .string str, _, _ => simp [vmStep, h1, h2, callFunction]
    | .function fname ar cs, hf, _ => exact absurd rfl (hf fname ar cs)
    | .builtinFunction bn, _, hb => exact absurd rfl (hb bn)
  · intro st n i hlen hi
    have harith : st.length - 1 - (st.length - n - 1 + i) = n - i := by omega
    have hrange : n - i < st.length := by omega
    simp [getFunctionArgs, slotFromBottom, harith, hi, List.getD_eq_getElem?_getD,
      List.getElem?_eq_getElem hrange]

/-- Claim C6 amended, witness: with the number `7` on top of a two-slot
stack and a function below it, `CALL(1)` fails with "Can only call
functions" (the top slot is what the VM inspects), and for the stack
bottom→top `[10, 20, f]` with `n = 2`, argument `0` of
`get_function_args` is the bottom-based slot `sp - n - 1 + 0 = 0`,
holding `10`. -/
theorem c6_callee_on_top_args_below_witness :
    vmStep emptyRegistry
        ⟨⟨[.call 1], [], []⟩, 0,
         [.number ⟨7, 1⟩, .function "g" 1 5], Environment.new, [], [], []⟩ =
      .failed ⟨⟨[.call 1], [], []⟩, 1,
               [.number ⟨7, 1⟩, .function "g" 1 5], Environment.new, [], [], [0]⟩
        (.runtimeError "Can only call functions") ∧
    (getFunctionArgs [.function "f" 2 9, .number ⟨20, 1⟩, .number ⟨10, 1⟩] 2)[0]? =
      slotFromBottom [.function "f" 2 9, .number ⟨20, 1⟩, .number ⟨10, 1⟩] 0 := by
  constructor
  · exact c6_callee_on_top_args_below.1 emptyRegistry
      ⟨⟨[.call 1], [], []⟩, 0,
       [.number ⟨7, 1⟩, .function "g" 1 5], Environment.new, [], [], []⟩ 1
      (.number ⟨7, 1⟩) [.function "g" 1 5] rfl rfl
      (fun _ _ _ h => Value.noConfusion h) (fun _ h => Value.noConfusion h)
  · exact c6_callee_on_top_args_below.2
      [.function "f" 2 9, .number ⟨20, 1⟩, .number ⟨10, 1⟩] 2 0 (by decide) (by decide)

/-- Setting an element at or beyond the taken region leaves the take
unchanged. -/
theorem take_set_of_le {α : Type _} (l : List α) (n i : Nat) (x : α) (h : n ≤ i) :
    (l.set i x).take n = l.take n := by
  apply List.ext_getElem
  · simp
  · intro k h1 h2
    simp only [List.getElem_take]
    have hik : i ≠ k := by
      have := h1
      simp at this
      omega
    rw [List.getElem_set_ne hik]

theorem cext_refl (c : Compiler) : CExt c c :=
  ⟨List.take_length _, List.take_length _⟩

theorem cext_code_le {a b : Compiler} (h : CExt a b) :
    a.chunk.code.length ≤ b.chunk.code.length := by
  have := congrArg List.length h.1
  simp [List.length_take] at this
  omega

theorem cext_constants_le {a b : Compiler} (h : CExt a b) :
    a.chunk.constants.length ≤ b.chunk.constants.length := by
  have := congrArg List.length h.2
  simp [List.length_take] at this
  omega

theorem cext_trans {a b c : Compiler} (h1 : CExt a b) (h2 : CExt b c) : CExt a c := by
  refine ⟨?_, ?_⟩
  · calc c.chunk.code.take a.chunk.code.length
        = (c.chunk.code.take b.chunk.code.length).take a.chunk.code.length := by
          rw [List.take_take, min_eq_left (cext_code_le h1)]
      _ = a.chunk.code := by rw [h2.1, h1.1]
  · calc c.chunk.constants.take a.chunk.constants.length
        = (c.chunk.constants.take b.chunk.constants.length).take a.chunk.constants.length := by
          rw [List.take_take, min_eq_left (cext_constants_le h1)]
      _ = a.chunk.constants := by rw [h2.2, h1.2]

theorem cext_emit (c : Compiler) (op : OpCode) : CExt c (c.emit op) :=
  ⟨List.take_left _ _, List.take_length _⟩

theorem cext_emitConstant (c : Compiler) (v : Value) : CExt c (c.emitConstant v) :=
  ⟨List.take_left _ _, List.take_left _ _⟩

theorem cext_patchJump {a b : Compiler} (h : CExt a b) {addr : Nat}
    (haddr : a.chunk.code.length ≤ addr) (target : Nat) :
    CExt a (b.patchJump addr target) := by
  obtain ⟨hc, hk⟩ := h
  refine ⟨?_, hk⟩
  show (match b.chunk.code.get? addr with
    | some (OpCode.jump _) => b.chunk.code.set addr (OpCode.jump target)
    | some (OpCode.jumpIfFalse _) => b.chunk.code.set addr (OpCode.jumpIfFalse target)
    | _ => b.chunk.code).take a.chunk.code.length = a.chunk.code
  split
  · rw [take_set_of_le _ _ _ _ haddr]; exact hc
  · rw [take_set_of_le _ _ _ _ haddr]; exact hc
  · exact hc

/-- Inversion of a successful `Except` bind. -/
theorem exceptBind_ok {ε α β : Type _} (x : Except ε α) (f : α → Except ε β) (b : β) :
    (x >>= f) = .ok b ↔ ∃ a, x = .ok a ∧ f a = .ok b := by
  cases x <;> simp [Bind.bind, Except.bind]

/-- Everything a successful expression compilation emits lands strictly
after the code and constants already present: the prior prefix of both is
preserved verbatim. -/
theorem compile_cext (fuel : Nat) :
    (∀ (e : Expr) (c c' : Compiler), compileExpr fuel e c = .ok c' → CExt c c') ∧
    (∀ (args : List Expr) (c c' : Compiler), compileArgs fuel args c = .ok c' → CExt c c') := by
  induction fuel using Nat.strong_induction_on with
  | _ fuel ih =>
    match fuel with
    | 0 =>
        constructor
        · intro e c c' h
          simp [compileExpr] at h
        · intro args c c' h
          match args with
          | [] =>
              simp [compileArgs] at h
              exact h ▸ cext_refl c
          | a :: t => simp [compileArgs] at h
    | fuel + 1 =>
        have ihE := (ih fuel (by omega)).1
        have ihA := (ih fuel (by omega)).2
        constructor
        · intro e c c' h
          match e with
          | .literal lit =>
              simp [compileExpr] at h
              exact h ▸ cext_emitConstant c _
          | .var name =>
              simp [compileExpr] at h
              exact h ▸ cext_emit c _
          | .binary l op r =>
              simp only [compileExpr, exceptBind_ok, Except.ok.injEq] at h
              obtain ⟨c1, h1, c2, h2, rfl⟩ := h
              exact cext_trans (ihE l c c1 h1)
                (cext_trans (ihE r c1 c2 h2) (cext_emit c2 _))
          | .unary op e1 =>
              simp only [compileExpr, exceptBind_ok] at h
              obtain ⟨c1, h1, h⟩ := h
              cases op <;> simp only [Except.ok.injEq] at h <;>
                exact h ▸ cext_trans (ihE e1 c c1 h1) (cext_emit c1 _)
          | .logical l .and r =>
              simp only [compileExpr, exceptBind_ok, Except.ok.injEq] at h
              obtain ⟨c1, h1, c3, h3, rfl⟩ := h
              have e1 : CExt c c1 := ihE l c c1 h1
              have e2 : CExt c ((c1.emit (.jumpIfFalse 0)).emit .pop) :=
                cext_trans e1 (cext_trans (cext_emit _ _) (cext_emit _ _))
              have e3 : CExt c c3 := cext_trans e2 (ihE r _ c3 h3)
              exact cext_patchJump e3 (le_trans (cext_code_le e1) (le_refl _)) _
          | .logical l .or r =>
              simp only [compileExpr, exceptBind_ok, Except.ok.injEq] at h
              obtain ⟨c1, h1, c5, h5, rfl⟩ := h
              have e1 : CExt c c1 := ihE l c c1 h1
              have e2 : CExt c ((c1.emit (.jumpIfFalse 0)).emit (.jump 0)) :=
                cext_trans e1 (cext_trans (cext_emit _ _) (cext_emit _ _))
              have e3 : CExt c
                  ((((c1.emit (.jumpIfFalse 0)).emit (.jump 0)).patchJump
                    c1.currentAddress ((c1.emit (.jumpIfFalse 0)).emit (.jump 0)).currentAddress).emit .pop) :=
                cext_trans (cext_patchJump e2 (cext_code_le e1) _) (cext_emit _ _)
              have e4 : CExt c c5 := cext_trans e3 (ihE r _ c5 h5)
              refine cext_patchJump e4 ?_ _
              have h1len := cext_code_le e1
              simp only [Compiler.currentAddress, Chunk.currentAddress, Compiler.emit,
                Chunk.emit, List.length_append, List.length_cons, List.length_nil]
              omega
          | .call (.var cname) args =>
              by_cases hp : cname = "print"
              · subst hp
                match args with
                | [] =>
                    exact Except.noConfusion (show (Except.error
                      (JingError.compileError "print() expects exactly 1 argument") :
                        Except JingError Compiler) = .ok c' from h)
                | [a] =>
                    have h2 : (compileExpr fuel a c >>= fun c1 =>
                        Except.ok (c1.emit .print)) = .ok c' := h
                    simp only [exceptBind_ok, Except.ok.injEq] at h2
                    obtain ⟨c1, h1, rfl⟩ := h2
                    exact cext_trans (ihE _ c c1 h1) (cext_emit c1 _)
                | a :: b :: t =>
                    exact Except.noConfusion (show (Except.error
                      (JingError.compileError "print() expects exactly 1 argument") :
                        Except JingError Compiler) = .ok c' from h)
              · by_cases hl : cname = "len"
                · subst hl
                  match args with
                  | [] =>
                      exact Except.noConfusion (show (Except.error
                        (JingError.compileError "len() expects exactly 1 argument") :
                          Except JingError Compiler) = .ok c' from h)
                  | [a] =>
                      have h2 : (compileExpr fuel a c >>= fun _ =>
                          (Except.error (JingError.compileError "len() not yet implemented") :
                            Except JingError Compiler)) = .ok c' := h
                      simp [exceptBind_ok] at h2
                  | a :: b :: t =>
                      exact Except.noConfusion (show (Except.error
                        (JingError.compileError "len() expects exactly 1 argument") :
                          Except JingError Compiler) = .ok c' from h)
                · by_cases hs : cname = "str"
                  · subst hs
                    match args with
                    | [] =>
                        exact Except.noConfusion (show (Except.error
                          (JingError.compileError "str() expects exactly 1 argument") :
                            Except JingError Compiler) = .ok c' from h)
                    | [a] =>
                        have h2 : (compileExpr fuel a c >>= fun _ =>
                            (Except.error (JingError.compileError "str() not yet implemented") :
                              Except JingError Compiler)) = .ok c' := h
                        simp [exceptBind_ok] at h2
                    | a :: b :: t =>
                        exact Except.noConfusion (show (Except.error
                          (JingError.compileError "str() expects exactly 1 argument") :
                            Except JingError Compiler) = .ok c' from h)
                  · simp only [compileExpr, if_neg hp, if_neg hl, if_neg hs,
                      exceptBind_ok, Except.ok.injEq] at h
                    obtain ⟨c1, h1, c2, h2, rfl⟩ := h
                    exact cext_trans (ihA _ c c1 h1)
                      (cext_trans (ihE _ c1 c2 h2) (cext_emit c2 _))
          | .call (.literal lit) args =>
              have h2 : (compileArgs fuel args c >>= fun c1 =>
                  compileExpr fuel (.literal lit) c1 >>= fun c2 =>
                  Except.ok (c2.emit (.call args.length))) = .ok c' := h
              simp only [exceptBind_ok, Except.ok.injEq] at h2
              obtain ⟨c1, h1, c2, h2, rfl⟩ := h2
              exact cext_trans (ihA _ c c1 h1)
                (cext_trans (ihE _ c1 c2 h2) (cext_emit c2 _))
          | .call (.binary bl bop br) args =>
              have h2 : (compileArgs fuel args c >>= fun c1 =>
                  compileExpr fuel (.binary bl bop br) c1 >>= fun c2 =>
                  Except.ok (c2.emit (.call args.length))) = .ok c' := h
              simp only [exceptBind_ok, Except.ok.injEq] at h2
              obtain ⟨c1, h1, c2, h2, rfl⟩ := h2
              exact cext_trans (ihA _ c c1 h1)
                (cext_trans (ihE _ c1 c2 h2) (cext_emit c2 _))
          | .call (.unary uop ue) args =>
              have h2 : (compileArgs fuel args c >>= fun c1 =>
                  compileExpr fuel (.unary uop ue) c1 >>= fun c2 =>
                  Except.ok (c2.emit (.call args.length))) = .ok c' := h
              simp only [exceptBind_ok, Except.ok.injEq] at h2
              obtain ⟨c1, h1, c2, h2, rfl⟩ := h2
              exact cext_trans (ihA _ c c1 h1)
                (cext_trans (ihE _ c1 c2 h2) (cext_emit c2 _))
          | .call (.call cc ca) args =>
              have h2 : (compileArgs fuel args c >>= fun c1 =>
                  compileExpr fuel (.call cc ca) c1 >>= fun c2 =>
                  Except.ok (c2.emit (.call args.length))) = .ok c' := h
              simp only [exceptBind_ok, Except.ok.injEq] at h2
              obtain ⟨c1, h1, c2, h2, rfl⟩ := h2
              exact cext_trans (ihA _ c c1 h1)
                (cext_trans (ihE _ c1 c2 h2) (cext_emit c2 _))
          | .call (.logical ll lop lr) args =>
              have h2 : (compileArgs fuel args c >>= fun c1 =>
                  compileExpr fuel (.logical ll lop lr) c1 >>= fun c2 =>
                  Except.ok (c2.emit (.call args.length))) = .ok c' := h
              simp only [exceptBind_ok, Except.ok.injEq] at h2
              obtain ⟨c1, h1, c2, h2, rfl⟩ := h2
              exact cext_trans (ihA _ c c1 h1)
                (cext_trans (ihE _ c1 c2 h2) (cext_emit c2 _))
          | .call (.assign an av) args =>
              have h2 : (compileArgs fuel args c >>= fun c1 =>
                  compileExpr fuel (.assign an av) c1 >>= fun c2 =>
                  Except.ok (c2.emit (.call args.length))) = .ok c' := h
              simp only [exceptBind_ok, Except.ok.injEq] at h2
              obtain ⟨c1, h1, c2, h2, rfl⟩ := h2
              exact cext_trans (ihA _ c c1 h1)
                (cext_trans (ihE _ c1 c2 h2) (cext_emit c2 _))
          | .assign name value =>
              match fuel, h with
              | 0, h => simp [compileExpr, compileAssign] at h
              | k + 1, h =>
                  simp only [compileExpr, compileAssign, exceptBind_ok,
                    Except.ok.injEq] at h
                  obtain ⟨c1, h1, rfl⟩ := h
                  exact cext_trans ((ih k (by omega)).1 value c c1 h1) (cext_emit c1 _)
        · intro args c c' h
          match args with
          | [] =>
              simp [compileArgs] at h
              exact h ▸ cext_refl c
          | a :: t =>
              simp only [compileArgs, exceptBind_ok] at h
              obtain ⟨c1, h1, h2⟩ := h
              exact cext_trans (ihE a c c1 h1) (ihA t c1 c' h2)

/-- Claim C7: for every expression statement `print(L and R)` whose left
operand is a falsy literal and whose right operand `R` is ANY expression,
if the program compiles then the run (i) terminates successfully after
executing only the instructions at indices `0` (push L), `1` (the
conditional jump), `n-2` (the print) and `n-1` (halt) — in particular NO
instruction in `[3, n-2)`, the region holding the code compiled from `R`,
is ever executed — and (ii) prints the left operand's value, which is the
value of the whole `and` expression. -/
theorem c7_falsy_and_skips_right_operand :
    ∀ (fuel : Nat) (lv : LiteralValue) (r : Expr) (ch : Chunk),
      (litValue lv).isFalsy = true →
      compileProgram fuel [Stmt.print (Expr.logical (Expr.literal lv) .and r)] = .ok ch →
      ∃ st, runVM emptyRegistry 10 (initVM ch) = some (st, .ok ()) ∧
        st.output = [(litValue lv).display] ∧
        st.trace = [ch.code.length - 1, ch.code.length - 2, 1, 0] ∧
        ∀ i ∈ st.trace, ¬ (3 ≤ i ∧ i < ch.code.length - 2) := by
  intro fuel lv r ch hf hc
  match fuel, hc with
  | 0, hc =>
      exact Except.noConfusion (show (Except.error
        (JingError.compileError "out of fuel") : Except JingError Chunk) = .ok ch from hc)
  | 1, hc =>
      exact Except.noConfusion (show (Except.error
        (JingError.compileError "out of fuel") : Except JingError Chunk) = .ok ch from hc)
  | 2, hc =>
      exact Except.noConfusion (show (Except.error
        (JingError.compileError "out of fuel") : Except JingError Chunk) = .ok ch from hc)
  | (k + 3), hc => ?_
  -- peel the concrete layers of the compile by definitional unfolding,
  -- leaving only the (stuck) compilation of `r`
  have hc2 : ((((compileExpr (k + 1) r
        (((Compiler.new.emitConstant (litValue lv)).emit (.jumpIfFalse 0)).emit .pop) >>=
          fun c3 => (Except.ok (c3.patchJump 1 c3.currentAddress) :
            Except JingError Compiler)) >>=
          fun cE => (Except.ok (cE.emit .print) : Except JingError Compiler)) >>=
          fun c1 => (Except.ok c1 : Except JingError Compiler)) >>=
          fun cAll => (Except.ok ((cAll.emit .halt).chunk) : Except JingError Chunk)) =
        .ok ch := hc
  simp only [exceptBind_ok, Except.ok.injEq, exists_eq_left, exists_eq_left',
    exists_eq_right, exists_eq_right', exists_exists_and_eq_and] at hc2
  obtain ⟨c3, h3, hch⟩ := hc2
  have hcx := (compile_cext (k + 1)).1 r _ c3 h3
  have htake : c3.chunk.code.take 3 = [.constant 0, .jumpIfFalse 0, .pop] := hcx.1
  have hktake : c3.chunk.constants.take 1 = [litValue lv] := hcx.2
  obtain ⟨X, hcode⟩ : ∃ X, c3.chunk.code = [.constant 0, .jumpIfFalse 0, .pop] ++ X := by
    refine ⟨c3.chunk.code.drop 3, ?_⟩
    conv_lhs => rw [← List.take_append_drop 3 c3.chunk.code]
    rw [htake]
  obtain ⟨K, hconsts⟩ : ∃ K, c3.chunk.constants = litValue lv :: K := by
    refine ⟨c3.chunk.constants.drop 1, ?_⟩
    conv_lhs => rw [← List.take_append_drop 1 c3.chunk.constants]
    rw [hktake]
    rfl
  have hL : c3.currentAddress = X.length + 3 := by
    simp [Compiler.currentAddress, Chunk.currentAddress, hcode]
  have hpatchcode : (c3.patchJump 1 c3.currentAddress).chunk.code =
      .constant 0 :: .jumpIfFalse (X.length + 3) :: .pop :: X := by
    simp [Compiler.patchJump, Chunk.patchJump, hcode, hL, List.set]
  have hpatchconst : (c3.patchJump 1 c3.currentAddress).chunk.constants =
      litValue lv :: K := by
    simp [Compiler.patchJump, Chunk.patchJump, hconsts]
  have hchcode : ch.code =
      .constant 0 :: .jumpIfFalse (X.length + 3) :: .pop :: (X ++ [.print, .halt]) := by
    rw [← hch]
    simp [Compiler.emit, Chunk.emit, hpatchcode]
  have hchconst : ch.constants = litValue lv :: K := by
    rw [← hch]
    simp [Compiler.emit, Chunk.emit, hpatchconst]
  have hchlen : ch.code.length = X.length + 5 := by
    simp [hchcode]
  have hstep0 : vmStep emptyRegistry (initVM ch) =
      .next ⟨ch, 1, [litValue lv], Environment.new, [], [], [0]⟩ := by
    simp [vmStep, initVM, hchcode, hchconst]
  have hstep1 : vmStep emptyRegistry ⟨ch, 1, [litValue lv], Environment.new, [], [], [0]⟩ =
      .next ⟨ch, X.length + 3, [litValue lv], Environment.new, [], [], [1, 0]⟩ := by
    simp [vmStep, hchcode, hf]
  have hmid : ((X ++ [OpCode.print, OpCode.halt] : List OpCode))[X.length]? =
      some OpCode.print := by
    rw [List.getElem?_append_right (le_refl X.length)]
    simp
  have hmid2 : ((X ++ [OpCode.print, OpCode.halt] : List OpCode))[X.length + 1]? =
      some OpCode.halt := by
    rw [List.getElem?_append_right (Nat.le_succ X.length)]
    simp
  have hfetch2 : ch.code[X.length + 3]? = some OpCode.print := by
    rw [hchcode]
    simp only [List.getElem?_cons_succ, hmid]
  have hfetch3 : ch.code[X.length + 4]? = some OpCode.halt := by
    rw [hchcode]
    simp only [List.getElem?_cons_succ, hmid2]
  have hstep2 : vmStep emptyRegistry
      ⟨ch, X.length + 3, [litValue lv], Environment.new, [], [], [1, 0]⟩ =
      .next ⟨ch, X.length + 4, [], Environment.new, [],
             [(litValue lv).display], [X.length + 3, 1, 0]⟩ := by
    simp [vmStep, hfetch2]
  have hstep3 : vmStep emptyRegistry
      ⟨ch, X.length + 4, [], Environment.new, [],
       [(litValue lv).display], [X.length + 3, 1, 0]⟩ =
      .halted ⟨ch, X.length + 5, [], Environment.new, [],
               [(litValue lv).display], [X.length + 4, X.length + 3, 1, 0]⟩ := by
    simp [vmStep, hfetch3]
  refine ⟨⟨ch, X.length + 5, [], Environment.new, [],
           [(litValue lv).display], [X.length + 4, X.length + 3, 1, 0]⟩, ?_, rfl, ?_, ?_⟩
  · have u0 : runVM emptyRegistry 10 (initVM ch) =
        runVM emptyRegistry 9 ⟨ch, 1, [litValue lv], Environment.new, [], [], [0]⟩ := by
      show (match vmStep emptyRegistry (initVM ch) with
        | .next s2 => runVM emptyRegistry 9 s2
        | .halted s2 => some (s2, .ok ())
        | .failed s2 e => some (s2, .error e)) = _
      rw [hstep0]
    have u1 : runVM emptyRegistry 9 ⟨ch, 1, [litValue lv], Environment.new, [], [], [0]⟩ =
        runVM emptyRegistry 8
          ⟨ch, X.length + 3, [litValue lv], Environment.new, [], [], [1, 0]⟩ := by
      show (match vmStep emptyRegistry
          ⟨ch, 1, [litValue lv], Environment.new, [], [], [0]⟩ with
        | .next s2 => runVM emptyRegistry 8 s2
        | .halted s2 => some (s2, .ok ())
        | .failed s2 e => some (s2, .error e)) = _
      rw [hstep1]
    have u2 : runVM emptyRegistry 8
        ⟨ch, X.length + 3, [litValue lv], Environment.new, [], [], [1, 0]⟩ =
        runVM emptyRegistry 7
          ⟨ch, X.length + 4, [], Environment.new, [],
           [(litValue lv).display], [X.length + 3, 1, 0]⟩ := by
      show (match vmStep emptyRegistry
          ⟨ch, X.length + 3, [litValue lv], Environment.new, [], [], [1, 0]⟩ with
        | .next s2 => runVM emptyRegistry 7 s2
        | .halted s2 => some (s2, .ok ())
        | .failed s2 e => some (s2, .error e)) = _
      rw [hstep2]
    have u3 : runVM emptyRegistry 7
        ⟨ch, X.length + 4, [], Environment.new, [],
         [(litValue lv).display], [X.length + 3, 1, 0]⟩ =
        some (⟨ch, X.length + 5, [], Environment.new, [],
               [(litValue lv).display], [X.length + 4, X.length + 3, 1, 0]⟩, .ok ()) := by
      show (match vmStep emptyRegistry
          ⟨ch, X.length + 4, [], Environment.new, [],
           [(litValue lv).display], [X.length + 3, 1, 0]⟩ with
        | .next s2 => runVM emptyRegistry 6 s2
        | .halted s2 => some (s2, .ok ())
        | .failed s2 e => some (s2, .error e)) = _
      rw [hstep3]
    rw [u0, u1, u2, u3]
  · simp only [hchlen, List.cons.injEq, and_true]
    omega
  · rw [hchlen]
    intro i hi
    simp at hi
    rcases hi with rfl | rfl | rfl | rfl <;> omega

/-- Witness for the C7 theorem at a concrete program: `print(false and oops())`.
The right operand is a call to the undefined name `oops`, which would fail at
run time were it ever executed; the run instead prints `false` and halts,
executing only instructions 0, 1, and the final print/halt. -/
theorem c7_falsy_and_skips_right_operand_witness :
    (litValue (.bool false)).isFalsy = true ∧
    compileProgram 9 [Stmt.print (Expr.logical (Expr.literal (.bool false)) .and
        (Expr.call (Expr.var "oops") []))] =
      .ok ⟨[.constant 0, .jumpIfFalse 5, .pop, .load "oops", .call 0, .print, .halt],
           [Value.bool false], []⟩ ∧
    (∃ st, runVM emptyRegistry 10 (initVM
        ⟨[.constant 0, .jumpIfFalse 5, .pop, .load "oops", .call 0, .print, .halt],
         [Value.bool false], []⟩) = some (st, .ok ()) ∧
      st.output = [(litValue (.bool false)).display] ∧
      st.trace = [(⟨[.constant 0, .jumpIfFalse 5, .pop, .load "oops", .call 0, .print,
          .halt], [Value.bool false], []⟩ : Chunk).code.length - 1,
        (⟨[.constant 0, .jumpIfFalse 5, .pop, .load "oops", .call 0, .print, .halt],
          [Value.bool false], []⟩ : Chunk).code.length - 2, 1, 0] ∧
      ∀ i ∈ st.trace, ¬ (3 ≤ i ∧ i <
        (⟨[.constant 0, .jumpIfFalse 5, .pop, .load "oops", .call 0, .print, .halt],
          [Value.bool false], []⟩ : Chunk).code.length - 2)) :=
  ⟨by decide, by decide,
    c7_falsy_and_skips_right_operand 9 (.bool false)
      (Expr.call (Expr.var "oops") []) _ (by decide) (by decide)⟩

/-- The cross-multiplication comparison agrees with the rational order. -/
theorem qLt_toRat (a b : Qn) (ha : 0 < a.den) (hb : 0 < b.den) :
    a.qLt b = decide (a.toRat < b.toRat) := by
  have ha' : (0 : ℚ) < a.den := by exact_mod_cast ha
  have hb' : (0 : ℚ) < b.den := by exact_mod_cast hb
  rw [Bool.eq_iff_iff, Qn.qLt, Qn.toRat, Qn.toRat, decide_eq_true_eq, decide_eq_true_eq,
    div_lt_div_iff ha' hb']
  exact_mod_cast Iff.rfl

/-- The scaled-absolute-difference test agrees with
`|a - b| < f64::EPSILON` on the denoted rationals. -/
theorem qEpsEq_toRat (a b : Qn) (ha : 0 < a.den) (hb : 0 < b.den) :
    a.qEpsEq b = decide (|a.toRat - b.toRat| < Value.epsF64) := by
  have ha' : (0 : ℚ) < a.den := by exact_mod_cast ha
  have hb' : (0 : ℚ) < b.den := by exact_mod_cast hb
  have hd : (0 : ℚ) < (a.den : ℚ) * b.den := by positivity
  have hsub : a.toRat - b.toRat =
      ((a.num * b.den - b.num * a.den : ℤ) : ℚ) / ((a.den : ℚ) * b.den) := by
    rw [Qn.toRat, Qn.toRat]
    field_simp
    ring
  rw [Bool.eq_iff_iff, Qn.qEpsEq, decide_eq_true_eq, decide_eq_true_eq, hsub,
    Value.epsF64, abs_div, abs_of_pos hd, div_lt_div_iff hd (by positivity), Qn.qSub]
  dsimp only
  rw [one_mul, ← Int.cast_abs, ← Int.cast_natAbs]
  exact_mod_cast Iff.rfl

/-- Claim C10: for number operands the VM evaluates `<=` as the strict
`<` OR-ed with the epsilon equality test, and `>=` as the strict `>`
OR-ed with the same test — on the denoted rationals,
`a <= b ⟺ a < b ∨ |a - b| < f64::EPSILON` — and therefore `a <= b` can
yield `true` even when `a > b` (third conjunct). -/
theorem c10_le_ge_strict_or_epsilon :
    (∀ (reg : Registry) (s : VMState) (a b : Qn) (rest : List Value),
      s.chunk.code[s.ip]? = some .lessEqual →
      s.stack = .number b :: .number a :: rest →
      0 < a.den → 0 < b.den →
      vmStep reg s =
        .next { s with
                ip := s.ip + 1, trace := s.ip :: s.trace,
                stack := .bool (decide (a.toRat < b.toRat) ||
                  decide (|a.toRat - b.toRat| < Value.epsF64)) :: rest }) ∧
    (∀ (reg : Registry) (s : VMState) (a b : Qn) (rest : List Value),
      s.chunk.code[s.ip]? = some .greaterEqual →
      s.stack = .number b :: .number a :: rest →
      0 < a.den → 0 < b.den →
      vmStep reg s =
        .next { s with
                ip := s.ip + 1, trace := s.ip :: s.trace,
                stack := .bool (decide (b.toRat < a.toRat) ||
                  decide (|a.toRat - b.toRat| < Value.epsF64)) :: rest }) ∧
    (∃ (a b : Qn), 0 < a.den ∧ 0 < b.den ∧ b.toRat < a.toRat ∧
      (a.qLt b || a.qEpsEq b) = true) := by
  refine ⟨?_, ?_, ?_⟩
  · intro reg s a b rest h1 h2 ha hb
    simp [vmStep, h1, h2, binStep, Value.lessThan, Value.equals, Except.map,
      qLt_toRat a b ha hb, qEpsEq_toRat a b ha hb]
  · intro reg s a b rest h1 h2 ha hb
    simp [vmStep, h1, h2, binStep, Value.greaterThan, Value.equals, Except.map,
      qLt_toRat b a hb ha, qEpsEq_toRat a b ha hb]
  · refine ⟨⟨1, 2 ^ 53⟩, ⟨0, 1⟩, by decide, by decide, ?_, by decide⟩
    rw [Qn.toRat, Qn.toRat]
    norm_num

/-- Claim C10, witness: on the concrete state comparing
`a = 2⁻⁵³` with `b = 0` (so `a > b`), `<=` pushes exactly the
strict-or-epsilon boolean — which is `true` here. -/
theorem c10_le_ge_strict_or_epsilon_witness :
    vmStep emptyRegistry
        ⟨⟨[.lessEqual], [], []⟩, 0,
         [.number ⟨0, 1⟩, .number ⟨1, 2 ^ 53⟩], Environment.new, [], [], []⟩ =
      .next ⟨⟨[.lessEqual], [], []⟩, 1,
             [.bool (decide ((⟨1, 2 ^ 53⟩ : Qn).toRat < (⟨0, 1⟩ : Qn).toRat) ||
               decide (|(⟨1, 2 ^ 53⟩ : Qn).toRat - (⟨0, 1⟩ : Qn).toRat| < Value.epsF64))],
             Environment.new, [], [], [0]⟩ := by
  exact c10_le_ge_strict_or_epsilon.1 emptyRegistry
    ⟨⟨[.lessEqual], [], []⟩, 0,
     [.number ⟨0, 1⟩, .number ⟨1, 2 ^ 53⟩], Environment.new, [], [], []⟩
    ⟨1, 2 ^ 53⟩ ⟨0, 1⟩ [] rfl rfl (by decide) (by decide)

/-- Claim C9, counterexample: the call `len(print())` has callee `len` and
exactly one argument, yet the compiler's error message is
"print() expects exactly 1 argument" — the argument is compiled first and
its error surfaces — not the claimed not-yet-implemented message. -/
theorem c9_len_one_arg_error_from_argument :
    compileExpr 5 (.call (.var "len") [.call (.var "print") []]) Compiler.new =
      .error (.compileError "print() expects exactly 1 argument") := by decide

/-- Claim C9, amended: every call whose callee is the bare identifier
`len` or `str` is rejected by the compiler with a `CompileError` (so it
never reaches the VM or the intrinsic registry): with an argument count
other than one, the message says the function expects exactly 1 argument;
with exactly one argument WHOSE COMPILATION SUCCEEDS, the message says the
function is not yet implemented (if the argument itself fails to compile,
that inner `CompileError` is reported instead — see the counterexample). -/
theorem c9_len_str_always_compile_error :
    ∀ (fuel : Nat) (name : String) (args : List Expr) (c : Compiler),
      (name = "len" ∨ name = "str") →
      (args.length ≠ 1 →
        compileExpr (fuel + 1) (.call (.var name) args) c =
          .error (.compileError (name ++ "() expects exactly 1 argument"))) ∧
      (∀ a c1, args = [a] → compileExpr fuel a c = .ok c1 →
        compileExpr (fuel + 1) (.call (.var name) args) c =
          .error (.compileError (name ++ "() not yet implemented"))) := by
  intro fuel name args c hname
  constructor
  · intro hlen
    rcases hname with h | h <;> subst h
    · match args, hlen with
      | [], _ => rfl
      | [a], hlen => simp at hlen
      | a :: b :: t, _ => rfl
    · match args, hlen with
      | [], _ => rfl
      | [a], hlen => simp at hlen
      | a :: b :: t, _ => rfl
  · intro a c1 ha hok
    subst ha
    rcases hname with h | h <;> subst h <;> (simp [compileExpr, hok]; rfl)

/-- Claim C9 amended, witness: `len()` is rejected for its argument count,
and `str(nil)` — whose single argument compiles fine — is rejected as not
yet implemented. -/
theorem c9_len_str_always_compile_error_witness :
    compileExpr 2 (.call (.var "len") []) Compiler.new =
      .error (.compileError "len() expects exactly 1 argument") ∧
    compileExpr 2 (.call (.var "str") [.literal .nilL]) Compiler.new =
      .error (.compileError "str() not yet implemented") := by
  constructor
  · exact (c9_len_str_always_compile_error 1 "len" [] Compiler.new (Or.inl rfl)).1
      (by decide)
  · exact (c9_len_str_always_compile_error 1 "str" [.literal .nilL] Compiler.new
      (Or.inr rfl)).2 (.literal .nilL) (Compiler.new.emitConstant .nil) rfl rfl

end Jing
